import Mathlib

/-!
Verification of the `coco` repository's `rcc` compiler front-end against its
natural-language specification.

The development shallowly embeds the data model and the IR-building pass of
`rcc`:

* `src/rcc/src/ir/ir_build.rs` — the IR builder (`IRBuilder`), including
  constant folding (`bin_op_may_constant_fold`), comparison-jump fusion and
  the intrusive back-patch chains;
* `src/rcc/src/analyser/scope.rs` — the scope model (`Scope`,
  `ScopeStack`, `find_variable`, `update_variable_type`, `exit_scope`);
* `src/rcc/src/ast/expr.rs` — the AST expression shapes and
  `LhsExpr::from_expr`.

Types that live in repository files not shipped here (`ir/mod.rs`,
`analyser/sym_resolver.rs`, `ast/stmt.rs`, `rcc.rs`) are modelled from the
specification; each such definition carries a doc comment starting with
`Modelled from the spec:`.

Machine integers are modelled as `Int`/`Nat` with explicit range checks and
two's-complement wrapping where the Rust code uses fixed-width arithmetic.
Instruction indices are 1-based: `0` is the back-patch chain terminator, so
real instruction positions start at `1` (spec §4.5.1: "each jump's
`target_index` stores the previous head or zero").

Recursive interpreters take an explicit fuel argument so that every
definition is executable by kernel reduction; fuel exhaustion surfaces as a
distinguished error that no theorem below ever treats as program behaviour.
-/

deriving instance DecidableEq for Except

namespace Rcc

/-- Modelled from the spec: the two optimization levels of `rcc.rs`
(`OptimizeLevel::{Zero, One}`). -/
inductive OptimizeLevel where
  | zero
  | one
deriving DecidableEq, Repr

/-- `TypeLitNum` from `ast/types.rs` (file not shipped; variant set taken
from its uses in `scope.rs`, `expr.rs` and `ir_build.rs`). -/
inductive TypeLitNum where
  | i
  | i8
  | i16
  | i32
  | i64
  | i128
  | isize
  | u8
  | u16
  | u32
  | u64
  | u128
  | usize
  | f
  | f32
  | f64
deriving DecidableEq, Repr

/-- Modelled from the spec: `TypeInfo` of `analyser/sym_resolver.rs`
(§3 "Types"). Function types are keyed by name — the only use the embedded
code makes of them is the identity check in `visit_item_fn` and the
`is_unknown`/`Fn`-shape tests in scope lookups. `refStr` stands for the
`&str` type produced by `TypeInfo::ref_str()` for string literals. -/
inductive TypeInfo where
  | unknown
  | bool
  | char
  | str
  | refStr
  | unit
  | never
  | litNum (t : TypeLitNum)
  | fnDef (name : String)
deriving DecidableEq, Repr

namespace TypeInfo

/-- `TypeInfo::is_unknown` (used by `visit_path_expr` via `find_fn`). -/
def isUnknown : TypeInfo → Bool
  | .unknown => true
  | _ => false

/-- `TypeInfo::is_never` (used by `update_variable_type`). -/
def isNever : TypeInfo → Bool
  | .never => true
  | _ => false

/-- `TypeLitNum` kinds denoting integer literal widths (everything except
the float kinds `F`, `F32`, `F64`). -/
def TypeLitNum.isIntKind : TypeLitNum → Bool
  | .f | .f32 | .f64 => false
  | _ => true

/-- `TypeLitNum` kinds denoting float literal widths. -/
def TypeLitNum.isFloatKind : TypeLitNum → Bool
  | .f | .f32 | .f64 => true
  | _ => false

/-- Modelled from the spec: the partial order on types used for
literal-type refinement (§3), oriented by its use in the code: a concrete
refinement of a literal-numeric placeholder lies strictly *below* the
placeholder (`update_variable_type` accepts `Greater | Equal` from
`current.partial_cmp(&new)`, and its own doc example refines `LitNum(I)`
to `i32`); `Never` lies below every type; `Unknown` compares equal to
everything; equal types compare equal; everything else is incomparable.
`partialCmp a b = some .gt` mirrors Rust's
`a.partial_cmp(&b) == Some(Greater)`. -/
def partialCmp (a b : TypeInfo) : Option Ordering :=
  if a = b then some .eq
  else if a = .unknown ∨ b = .unknown then some .eq
  else
    match a, b with
    | .never, _ => some .lt
    | _, .never => some .gt
    | .litNum ka, .litNum kb =>
      if ka = .i ∧ TypeLitNum.isIntKind kb then some .gt
      else if kb = .i ∧ TypeLitNum.isIntKind ka then some .lt
      else if ka = .f ∧ TypeLitNum.isFloatKind kb then some .gt
      else if kb = .f ∧ TypeLitNum.isFloatKind ka then some .lt
      else none
    | _, _ => none

end TypeInfo

/-- Modelled from the spec: `VarKind` of `analyser/sym_resolver.rs` —
the binding kinds used by the IR builder (`Local`, `LocalMut`). -/
inductive VarKind where
  | localVar
  | localMut
deriving DecidableEq, Repr

/-- `VarInfo` of `analyser/sym_resolver.rs` (file not shipped; fields taken
from its uses in `scope.rs` and the tests: a statement id stamp, a binding
kind and a type). -/
structure VarInfo where
  stmtId : Nat
  kind : VarKind
  typeInfo : TypeInfo
deriving DecidableEq, Repr

instance : Inhabited VarInfo := ⟨⟨0, .localVar, .unknown⟩⟩

/-- `BinOperator` from `ast/expr.rs`. -/
inductive BinOperator where
  | plus
  | minus
  | star
  | slash
  | percent
  | caret
  | and
  | or
  | shl
  | shr
  | andAnd
  | orOr
  | asCast
  | eqEq
  | ne
  | gt
  | lt
  | ge
  | le
deriving DecidableEq, Repr

/-- `AssignOp` from `ast/expr.rs`. -/
inductive AssignOp where
  | plusEq
  | minusEq
  | starEq
  | slashEq
  | percentEq
  | caretEq
  | andEq
  | orEq
  | shlEq
  | shrEq
  | eq
deriving DecidableEq, Repr

/-- `UnOp` from `ast/expr.rs`. -/
inductive UnOp where
  | deref
  | not
  | neg
  | borrow
  | borrowMut
deriving DecidableEq, Repr

/-- Modelled from the spec: the comparison kinds of `ir::Jump`
(`JEq`, `JNe`, `JLt`, `JGe` — exactly the variants `ir_build.rs`
constructs). -/
inductive JumpKind where
  | jEq
  | jNe
  | jLt
  | jGe
deriving DecidableEq, Repr

/-- Modelled from the spec: `IRType` of `ir/mod.rs`; the variants the
builder can produce from resolved types (`ir/tests.rs` shows `IRType::I32`). -/
inductive IRType where
  | bool
  | char
  | i8
  | i16
  | i32
  | i64
  | f32
  | f64
deriving DecidableEq, Repr

/-- Modelled from the spec: `Place` of `ir/mod.rs` (§3: a named storage
location `"<ident>_<scope_id>"` or temporary `"$<n>_<scope_id>"`, plus a
mutability tag). `Place::local(label)` is `⟨label, .local⟩`. -/
structure Place where
  label : String
  kind : VarKind
deriving DecidableEq, Repr

namespace Place

/-- `Place::local` of `ir/mod.rs` (as used by `ir/tests.rs`). -/
def localP (label : String) : Place := ⟨label, .localVar⟩

/-- `Place::variable(ident, scope_id, kind)`: label `"<ident>_<scope_id>"`. -/
def variableP (ident : String) (scopeId : Nat) (kind : VarKind) : Place :=
  ⟨ident ++ "_" ++ Nat.repr scopeId, kind⟩

/-- `Place::is_temp`: temporaries are the `"$<n>_<scope_id>"` names
produced by `var_name::temp_local_var`; the label starts with `'$'`. -/
def isTemp (p : Place) : Bool :=
  match p.label.data with
  | c :: _ => c = '$'
  | [] => false

end Place

/-- `ir::var_name::temp_local_var(n, scope_id)` (file not shipped; the name
shape `"$<n>_<scope_id>"` is fixed by §3 and by `ir/tests.rs`,
e.g. `"$0_1"`). -/
def tempLocalVar (n scopeId : Nat) : String :=
  "$" ++ Nat.repr n ++ "_" ++ Nat.repr scopeId

/-- Modelled from the spec: `Operand` of `ir/mod.rs` (§3). Integer operands
carry their mathematical value as `Int`; the construction sites range-check
them. Float operands are not modelled (the claims under verification never
produce one); programs containing float literals are rejected by the
embedded builder with an explicit error. -/
inductive Operand where
  | i8 (v : Int)
  | i16 (v : Int)
  | i32 (v : Int)
  | i64 (v : Int)
  | i128 (v : Int)
  | isize (v : Int)
  | u8 (v : Int)
  | u16 (v : Int)
  | u32 (v : Int)
  | u64 (v : Int)
  | u128 (v : Int)
  | usize (v : Int)
  | bool (b : Bool)
  | char (c : Char)
  | unit
  | never
  | place (p : Place)
  | fnLabel (name : String)
  | fnRetPlace
  | roLabel (label : String)
deriving DecidableEq, Repr

namespace Operand

/-- `Operand::is_unit_or_never` of `ir/mod.rs` (name and use fixed by
`visit_stmt`, `visit_block_expr` and `visit_loop_block`). -/
def isUnitOrNever : Operand → Bool
  | .unit | .never => true
  | _ => false

/-- Modelled from the spec: the `Debug` rendering of an operand, used only
to build the `visit_block_expr` error message (`format!("... found {:?}",
res)`). Only the variants that can reach that message need a faithful-ish
rendering; the exact text of the suffix is not load-bearing for any claim. -/
def debugStr : Operand → String
  | .i32 v => "I32(" ++ v.repr ++ ")"
  | .bool b => "Bool(" ++ (if b then "true" else "false") ++ ")"
  | .char _ => "Char"
  | .unit => "Unit"
  | .never => "Never"
  | .place p => "Place(" ++ p.label ++ ")"
  | .fnLabel n => "FnLabel(" ++ n ++ ")"
  | .fnRetPlace => "FnRetPlace"
  | .roLabel l => "RoLabel(" ++ l ++ ")"
  | _ => "Operand"

end Operand

/-- Modelled from the spec: `IRInst` of `ir/mod.rs` (§3), restricted to the
variants `ir_build.rs` constructs. `target` fields are 1-based instruction
positions (0 = chain terminator). -/
inductive IRInst where
  | binOp (op : BinOperator) (ty : IRType) (dest : Place) (lhs rhs : Operand)
  | loadData (dest : Place) (src : Operand)
  | call (callee : Operand) (args : List Operand)
  | ret (op : Operand)
  | jump (target : Nat)
  | jumpIfNot (cond : Operand) (target : Nat)
  | jumpIfCond (cmp : JumpKind) (lhs rhs : Operand) (target : Nat)
deriving DecidableEq, Repr

instance : Inhabited IRInst := ⟨.ret .unit⟩

namespace IRInst

/-- `IRInst::jump_label` of `ir/mod.rs`, partial on the three jump shapes
(the back-patch walk only ever reads it from chain members, which are
jumps); `none` models the non-jump case. -/
def getTarget : IRInst → Option Nat
  | .jump t => some t
  | .jumpIfNot _ t => some t
  | .jumpIfCond _ _ _ t => some t
  | _ => none

/-- `IRInst::set_jump_label` of `ir/mod.rs`; identity on non-jumps. -/
def setTarget : IRInst → Nat → IRInst
  | .jump _, t => .jump t
  | .jumpIfNot c _, t => .jumpIfNot c t
  | .jumpIfCond k l r _, t => .jumpIfCond k l r t
  | i, _ => i

end IRInst

/-! ### Checked i32 arithmetic

The arithmetic of `bin_op_may_constant_fold` (`ir_build.rs`, lines
910–958), which works on `i32` via Rust's `checked_*` family. -/

/-- The smallest `i32` value. -/
def i32Min : Int := -2147483648

/-- The largest `i32` value. -/
def i32Max : Int := 2147483647

/-- Whether an integer fits in `i32`. -/
def fitsI32 (n : Int) : Bool := decide (i32Min ≤ n ∧ n ≤ i32Max)

/-- Two's-complement truncation of an integer to `i32`. -/
def wrapI32 (n : Int) : Int := (n + 2147483648) % 4294967296 - 2147483648

/-- The unsigned 32-bit pattern of an `i32` value. -/
def toU32 (n : Int) : Nat := (n % 4294967296).toNat

/-- Reinterpret an unsigned 32-bit pattern as an `i32` value. -/
def ofU32 (n : Nat) : Int := wrapI32 (Int.ofNat n)

/-- `i32::checked_add`. -/
def checkedAddI32 (l r : Int) : Option Int :=
  if fitsI32 (l + r) then some (l + r) else none

/-- `i32::checked_sub`. -/
def checkedSubI32 (l r : Int) : Option Int :=
  if fitsI32 (l - r) then some (l - r) else none

/-- `i32::checked_mul`. -/
def checkedMulI32 (l r : Int) : Option Int :=
  if fitsI32 (l * r) then some (l * r) else none

/-- `i32::checked_div`: `None` on division by zero and on `i32::MIN / -1`;
Rust division truncates toward zero (`Int.tdiv`). -/
def checkedDivI32 (l r : Int) : Option Int :=
  if r = 0 ∨ (l = i32Min ∧ r = -1) then none else some (l.tdiv r)

/-- `i32::checked_rem`: `None` on a zero divisor and on `i32::MIN % -1`;
Rust `%` takes the dividend's sign (`Int.tmod`). -/
def checkedRemI32 (l r : Int) : Option Int :=
  if r = 0 ∨ (l = i32Min ∧ r = -1) then none else some (l.tmod r)

/-- `i32::checked_shl(l, r as u32)`: `None` iff the re-interpreted shift
amount is ≥ 32 (any negative `r` re-interprets to a huge `u32`); otherwise
the value bits are shifted with two's-complement truncation. -/
def checkedShlI32 (l r : Int) : Option Int :=
  if 0 ≤ r ∧ r < 32 then some (wrapI32 (l * (2 : Int) ^ r.toNat)) else none

/-- `i32::checked_shr(l, r as u32)`: `None` iff the re-interpreted shift
amount is ≥ 32; otherwise an arithmetic (sign-extending) right shift,
i.e. flooring division by `2^r`. -/
def checkedShrI32 (l r : Int) : Option Int :=
  if 0 ≤ r ∧ r < 32 then some (l.fdiv ((2 : Int) ^ r.toNat)) else none

/-- Bitwise AND on `i32` bit patterns. -/
def landI32 (l r : Int) : Int := ofU32 (Nat.land (toU32 l) (toU32 r))

/-- Bitwise OR on `i32` bit patterns. -/
def lorI32 (l r : Int) : Int := ofU32 (Nat.lor (toU32 l) (toU32 r))

/-- Bitwise XOR on `i32` bit patterns. -/
def lxorI32 (l r : Int) : Int := ofU32 (Nat.xor (toU32 l) (toU32 r))

/-- `bin_op_may_constant_fold` (`ir_build.rs`, lines 910–958): constant
folding for two `i32` literal operands; `ok none` when the operand pair or
operator is not folded, `error` when the checked arithmetic fails. -/
def binOpMayConstantFold (op : BinOperator) (src1 src2 : Operand) :
    Except String (Option Operand) :=
  match src1, src2 with
  | .i32 l, .i32 r =>
    match op with
    | .plus =>
      match checkedAddI32 l r with
      | some res => .ok (some (.i32 res))
      | none => .error "add overflow"
    | .minus =>
      match checkedSubI32 l r with
      | some res => .ok (some (.i32 res))
      | none => .error "sub overflow"
    | .star =>
      match checkedMulI32 l r with
      | some res => .ok (some (.i32 res))
      | none => .error "mul overflow"
    | .slash =>
      match checkedDivI32 l r with
      | some res => .ok (some (.i32 res))
      | none => .error "div overflow"
    | .lt => .ok (some (.bool (decide (l < r))))
    | .le => .ok (some (.bool (decide (l ≤ r))))
    | .gt => .ok (some (.bool (decide (l > r))))
    | .ge => .ok (some (.bool (decide (l ≥ r))))
    | .ne => .ok (some (.bool (decide (l ≠ r))))
    | .eqEq => .ok (some (.bool (decide (l = r))))
    | .shl =>
      match checkedShlI32 l r with
      | some res => .ok (some (.i32 res))
      | none => .error "shl overflow"
    | .shr =>
      match checkedShrI32 l r with
      | some res => .ok (some (.i32 res))
      | none => .error "shr overflow"
    | .and => .ok (some (.i32 (landI32 l r)))
    | .or => .ok (some (.i32 (lorI32 l r)))
    | .caret => .ok (some (.i32 (lxorI32 l r)))
    | .percent =>
      match checkedRemI32 l r with
      | some res => .ok (some (.i32 res))
      | none => .error "rem overflow"
    | _ => .ok none
  | _, _ => .ok none

/-! ### The scope model (`analyser/scope.rs`)

Rust keeps each `Scope` inside its owning AST block and wires raw parent
pointers.  The embedding stores all scopes in a flat association list
keyed by `scope_id` (parse-time scope ids are unique), and materialises a
parent walk as the list of `(scope_id, ScopeData)` pairs visited — self
first, then fathers.  All chain-walking functions below consume such a
materialised chain, exactly in the order the Rust pointer walk visits it. -/

/-- Association-list lookup keyed by `String` (models `HashMap::get`). -/
def lookupA {α : Type} : List (String × α) → String → Option α
  | [], _ => none
  | p :: rest, key => if p.1 = key then some p.2 else lookupA rest key

/-- Association-list lookup keyed by `Nat`. -/
def lookupN {α : Type} : List (Nat × α) → Nat → Option α
  | [], _ => none
  | p :: rest, key => if p.1 = key then some p.2 else lookupN rest key

/-- `Scope` of `analyser/scope.rs` (minus the raw parent pointer, which the
flat scope table models as an optional father id). -/
structure ScopeData where
  father : Option Nat
  types : List (String × TypeInfo)
  vars : List (String × List VarInfo)
  curStmtId : Nat
  tempCount : Nat
deriving DecidableEq, Repr

instance : Inhabited ScopeData := ⟨⟨none, [], [], 0, 0⟩⟩

/-- `Scope::new(scope_id)`: empty tables, no father, both counters zero. -/
def ScopeData.newScope : ScopeData := ⟨none, [], [], 0, 0⟩

/-- Appending a `VarInfo` under `ident` (`HashMap` entry push of
`Scope::add_variable`): extend the existing stable-ordered sequence, or
start a fresh one. -/
def addVarEntry : List (String × List VarInfo) → String → VarInfo →
    List (String × List VarInfo)
  | [], ident, vi => [(ident, [vi])]
  | (k, v) :: rest, ident, vi =>
    if k = ident then (k, v ++ [vi]) :: rest
    else (k, v) :: addVarEntry rest ident vi

/-- `Scope::add_variable(ident, kind, type_info)`: stamp the entry with the
scope's `cur_stmt_id` and append it under `ident`. -/
def ScopeData.addVariable (sd : ScopeData) (ident : String) (kind : VarKind)
    (ti : TypeInfo) : ScopeData :=
  { sd with vars := addVarEntry sd.vars ident ⟨sd.curStmtId, kind, ti⟩ }

/-- `Scope::gen_temp_variable(type_info)` for the scope with id `scopeId`:
produce the `"$<n>_<scope_id>"` name, bump the temp counter, and record it
as a `Local` variable at the current statement id. -/
def ScopeData.genTempVariable (sd : ScopeData) (scopeId : Nat)
    (ti : TypeInfo) : String × ScopeData :=
  let ident := tempLocalVar sd.tempCount scopeId
  (ident, ScopeData.addVariable { sd with tempCount := sd.tempCount + 1 }
    ident .localVar ti)

/-- The binary search of `Scope::find_variable` (lines 149–165): locate the
greatest entry below the querying scope's `cur_stmt_id` `q` in `v[left..=right]`.
`none` models the `unreachable!()` on `q = stmt_id` (and fuel exhaustion,
which cannot occur at the fuel `findVarEntry` supplies). -/
def bsearchFind (fuel : Nat) (v : List VarInfo) (q left right : Nat) :
    Option Nat :=
  match fuel with
  | 0 => none
  | f + 1 =>
    if left < right then
      let mid := (left + right + 1) / 2
      let stmtId := (v.getD mid default).stmtId
      if q < stmtId then bsearchFind f v q left (mid - 1)
      else if q = stmtId then none
      else bsearchFind f v q mid right
    else some left

/-- Entry selection of `Scope::find_variable` within one scope's sequence:
a single entry is returned unconditionally; otherwise the binary search
runs over the whole sequence. (`v` is never empty in Rust — map entries
are created nonempty and only pushed to.) -/
def findVarEntry (v : List VarInfo) (q : Nat) : Option VarInfo :=
  match v with
  | [] => none
  | _ =>
    if v.length - 1 = 0 then some (v.getD 0 default)
    else (bsearchFind v.length v q 0 (v.length - 1)).map
      (fun idx => v.getD idx default)

/-- `Scope::find_variable(ident)` walking an explicit father chain (self
first). `q` is the `cur_stmt_id` of the scope the call started on — the
Rust code compares against `self.cur_stmt_id` even while probing
ancestors. -/
def findVariableChain (q : Nat) (ident : String) :
    List (Nat × ScopeData) → Option (VarInfo × Nat)
  | [] => none
  | (sid, sd) :: rest =>
    match lookupA sd.vars ident with
    | some v => (findVarEntry v q).map (fun vi => (vi, sid))
    | none => findVariableChain q ident rest

/-- `Scope::find_variable` with the query id read off the head scope. -/
def findVariable (chain : List (Nat × ScopeData)) (ident : String) :
    Option (VarInfo × Nat) :=
  findVariableChain ((chain.headI).2.curStmtId) ident chain

/-- The binary search of `Scope::find_variable_mut` (lines 116–131).
Unlike `find_variable` it starts with `right = v.len()`, so `mid` can
reach `v.len()` and the `get_unchecked(mid)` reads out of bounds; `none`
models that undefined behaviour (and the unreachable `q = stmt_id` case,
and fuel exhaustion). -/
def bsearchFindMut (fuel : Nat) (v : List VarInfo) (q left right : Nat) :
    Option Nat :=
  match fuel with
  | 0 => none
  | f + 1 =>
    if left < right then
      let mid := (left + right + 1) / 2
      match v.get? mid with
      | none => none
      | some entry =>
        if q < entry.stmtId then bsearchFindMut f v q left (mid - 1)
        else if q = entry.stmtId then none
        else bsearchFindMut f v q mid right
    else some left

/-- Entry selection of `Scope::find_variable_mut` within one sequence:
`right` starts at `v.len()` and a length-1 sequence short-circuits. -/
def findVarEntryMut (v : List VarInfo) (q : Nat) : Option Nat :=
  match v with
  | [] => none
  | _ =>
    if v.length = 1 then some 0
    else bsearchFindMut (v.length + 1) v q 0 v.length

/-- Overwrite the type of the `idx`-th entry under `ident` (the write
`var_info.type_info = new_type_info` of `update_variable_type`). -/
def setVarType (sd : ScopeData) (ident : String) (idx : Nat)
    (newT : TypeInfo) : ScopeData :=
  { sd with
    vars := sd.vars.map (fun (k, v) =>
      if k = ident then
        (k, v.set idx { v.getD idx default with typeInfo := newT })
      else (k, v)) }

/-- `Scope::update_variable_type(ident, new_type_info)` (lines 88–108) over
a materialised father chain: locate the variable as `find_variable_mut`
does, compare the current type against the new one under the partial
order, overwrite on `Greater`/`Equal` unless the new type is `Never`
(in which case the call still succeeds but writes nothing), and fail with
"invalid type" on `Less` or incomparability. `q` is the starting scope's
`cur_stmt_id`. -/
def updateVariableTypeChain (q : Nat) (ident : String) (newT : TypeInfo) :
    List (Nat × ScopeData) → Except String (List (Nat × ScopeData))
  | [] => .error ("variable `" ++ ident ++ "` not found")
  | (sid, sd) :: rest =>
    match lookupA sd.vars ident with
    | some v =>
      match findVarEntryMut v q with
      | none => .error "undefined behaviour in find_variable_mut"
      | some idx =>
        match TypeInfo.partialCmp (v.getD idx default).typeInfo newT with
        | some .gt | some .eq =>
          if newT.isNever then .ok ((sid, sd) :: rest)
          else .ok ((sid, setVarType sd ident idx newT) :: rest)
        | some .lt => .error "invalid type"
        | none => .error "invalid type"
    | none =>
      (updateVariableTypeChain q ident newT rest).map
        (fun rest2 => (sid, sd) :: rest2)

/-- `Scope::update_variable_type` with the query id read off the head. -/
def updateVariableType (chain : List (Nat × ScopeData)) (ident : String)
    (newT : TypeInfo) : Except String (List (Nat × ScopeData)) :=
  updateVariableTypeChain ((chain.headI).2.curStmtId) ident newT chain

/-- `Scope::find_fn(ident)` over a father chain: return the first
`Fn`-shaped entry of the type tables; non-`Fn` entries are skipped and the
walk continues upward; `Unknown` when nothing matches. -/
def findFnChain (ident : String) : List (Nat × ScopeData) → TypeInfo
  | [] => .unknown
  | (_, sd) :: rest =>
    match lookupA sd.types ident with
    | some (.fnDef n) => .fnDef n
    | _ => findFnChain ident rest

/-- `ScopeStack` of `analyser/scope.rs`: the current scope pointer, the
stack of outer scopes (represented top-first), and the flat scope table
standing in for the AST-owned scope storage. -/
structure ScopeStack where
  curScope : Nat
  stack : List Nat
  heap : List (Nat × ScopeData)
deriving DecidableEq, Repr

namespace ScopeStack

/-- Read a scope from the table (absent ids yield an inert empty scope —
unreachable when the table covers every parse-time scope id). -/
def getScope (ss : ScopeStack) (id : Nat) : ScopeData :=
  (lookupN ss.heap id).getD default

/-- Point-wise scope table update. -/
def updateScope (ss : ScopeStack) (id : Nat) (f : ScopeData → ScopeData) :
    ScopeStack :=
  { ss with heap := ss.heap.map (fun p => if p.1 = id then (p.1, f p.2) else p) }

/-- `ScopeStack::enter_scope(block_expr)`: wire the block scope's father to
the current scope, push the current scope, and make the block scope
current. -/
def enterScope (ss : ScopeStack) (blockScopeId : Nat) : ScopeStack :=
  let ss := ss.updateScope blockScopeId (fun sd => { sd with father := some ss.curScope })
  { ss with stack := ss.curScope :: ss.stack, curScope := blockScopeId }

/-- `ScopeStack::exit_scope` (lines 267–274): pop the saved outer scope,
make it current, and reset *that* scope's `cur_stmt_id` to zero. On an
empty stack the Rust code only trips a `debug_assert!` and otherwise does
nothing. -/
def exitScope (ss : ScopeStack) : ScopeStack :=
  match ss.stack with
  | [] => ss
  | top :: rest =>
    let ss := { ss with curScope := top, stack := rest }
    ss.updateScope top (fun sd => { sd with curStmtId := 0 })

/-- Materialise the father chain starting at `id` (self first), following
father links through the scope table; the fuel (one more than the table
size) covers every acyclic chain. -/
def chainFrom (ss : ScopeStack) : Nat → Nat → List (Nat × ScopeData)
  | 0, _ => []
  | f + 1, id =>
    let sd := ss.getScope id
    (id, sd) ::
      (match sd.father with
       | some fid => ss.chainFrom f fid
       | none => [])

/-- The father chain of the current scope. -/
def curChain (ss : ScopeStack) : List (Nat × ScopeData) :=
  ss.chainFrom (ss.heap.length + 1) ss.curScope

end ScopeStack

/-! ### The resolved AST (`ast/expr.rs`, `ast/stmt.rs`, `ast/item.rs`)

The expression shapes follow `ast/expr.rs`.  Nodes carry the `TypeInfo`
the symbol resolver left on them (the Rust `Rc<RefCell<TypeInfo>>` cells
are read-only during IR building, so plain values are faithful).  Block
expressions carry the parse-time `scope_id` of their embedded scope; the
scope's resolved contents live in the program's scope table.  Numeric
literals carry their integer value (`LitNumExpr.value` is the source
digit string; float literals are outside the modelled fragment). -/

mutual
inductive Expr where
  | path (segments : List String) (typeInfo : TypeInfo)
  | litNum (value : Int) (lit : TypeLitNum)
  | litBool (b : Bool)
  | litChar (c : Char)
  | litStr (s : String)
  | unary (op : UnOp) (e : Expr) (typeInfo : TypeInfo)
  | block (b : BlockE)
  | assign (lhs : LhsE) (op : AssignOp) (rhs : Expr)
  | range (lhs : Option Expr) (rhs : Option Expr)
  | binOp (lhs : Expr) (op : BinOperator) (rhs : Expr) (typeInfo : TypeInfo)
  | grouped (e : Expr)
  | array (elems : List Expr)
  | arrayIndex (e : Expr) (idx : Expr)
  | tuple (elems : List Expr)
  | tupleIndex (e : Expr)
  | structE
  | enumVariant
  | call (callee : Expr) (params : List Expr) (typeInfo : TypeInfo)
  | methodCall
  | fieldAccess (lhs : Expr) (rhs : Expr)
  | whileE (cond : Expr) (body : BlockE)
  | loopE (body : BlockE) (typeInfo : TypeInfo)
  | forE
  | ifE (conditions : List Expr) (blocks : List BlockE) (typeInfo : TypeInfo)
  | matchE
  | retE (e : Option Expr)
  | breakE (e : Option Expr)

/-- `LhsExpr` from `ast/expr.rs`. -/
inductive LhsE where
  | path (segments : List String) (typeInfo : TypeInfo)
  | arrayIndex (e : Expr) (idx : Expr)
  | tupleIndex (e : Expr)
  | fieldAccess (lhs : Expr) (rhs : Expr)
  | deref (e : Expr)

/-- `BlockExpr` from `ast/expr.rs`: statements, an optional value
expression, the embedded scope's id, and the resolver-assigned type. -/
inductive BlockE where
  | mk (stmts : List Stmt) (lastExpr : Option Expr) (scopeId : Nat)
      (typeInfo : TypeInfo)

/-- Modelled from the spec: `Stmt` of `ast/stmt.rs` (§3 "AST": item, `let`,
expression-statement, semicolon).  `let` patterns are always identifier
patterns in the builder (`ast/pattern.rs`'s only variant). -/
inductive Stmt where
  | semi
  | item (it : ItemAst)
  | letStmt (ident : String) (isMut : Bool) (rhs : Option Expr)
  | exprStmt (e : Expr)

/-- Modelled from the spec: the `Item` shapes the IR builder handles
(`Item::Fn`, `Item::Struct`); everything else hits `unimplemented!()`. -/
inductive ItemAst where
  | fnItem (name : String) (fnBlock : BlockE)
  | structItem (name : String)
end

namespace BlockE

/-- The statement list of a block. -/
def stmts : BlockE → List Stmt
  | .mk ss _ _ _ => ss

/-- The optional trailing value expression of a block. -/
def lastExpr : BlockE → Option Expr
  | .mk _ le _ _ => le

/-- The id of the block's embedded scope. -/
def scopeId : BlockE → Nat
  | .mk _ _ sid _ => sid

/-- The resolver-assigned type of the block. -/
def typeInfo : BlockE → TypeInfo
  | .mk _ _ _ ti => ti

end BlockE

/-- Modelled from the spec: `Stmt::is_return` of `ast/stmt.rs`, used by
`BlockExpr::last_stmt_is_return` — a statement that is a `return`
expression statement. -/
def Stmt.isReturn : Stmt → Bool
  | .exprStmt (.retE _) => true
  | _ => false

/-- `BlockExpr::last_stmt_is_return` from `ast/expr.rs` (lines 329–335). -/
def BlockE.lastStmtIsReturn (b : BlockE) : Bool :=
  b.lastExpr.isNone &&
    match b.stmts.getLast? with
    | some s => s.isReturn
    | none => false

/-- `LhsExpr::from_expr` from `ast/expr.rs` (lines 195–211): paths,
array/tuple indexing, field accesses and `*`-dereferences convert;
grouped parentheses are looked through; everything else is rejected with
"invalid lhs expr". -/
def LhsE.fromExpr : Expr → Except String LhsE
  | .path segs ti => .ok (.path segs ti)
  | .unary op e _ =>
    if op = .deref then .ok (.deref e) else .error "invalid lhs expr"
  | .grouped e => LhsE.fromExpr e
  | .arrayIndex e i => .ok (.arrayIndex e i)
  | .tupleIndex e => .ok (.tupleIndex e)
  | .fieldAccess l r => .ok (.fieldAccess l r)
  | _ => .error "invalid lhs expr"

/-- The type of a block expression (`BlockExpr::type_info`). -/
def blockTypeInfo : BlockE → TypeInfo
  | .mk _ _ _ ti => ti

/-- `ExprVisit::type_info` for `Expr` (`ast/expr.rs`, lines 108–135).
The shapes on which Rust panics with `unimplemented!` (ranges, arrays,
tuples, …) yield `Unknown` here; the builder rejects those expressions
before their type is ever consulted for emission. -/
def exprTypeInfo : Expr → TypeInfo
  | .path _ ti => ti
  | .litStr _ => .refStr
  | .litChar _ => .char
  | .litBool _ => .bool
  | .litNum _ lit => .litNum lit
  | .unary _ _ ti => ti
  | .block b => blockTypeInfo b
  | .assign _ _ _ => .unit
  | .binOp _ _ _ ti => ti
  | .grouped e => exprTypeInfo e
  | .call _ _ ti => ti
  | .whileE _ _ => .unit
  | .loopE _ ti => ti
  | .ifE _ _ ti => ti
  | .retE _ => .never
  | .breakE _ => .never
  | _ => .unknown

/-- `ExprVisit::type_info` for `LhsExpr` (`ast/expr.rs`, lines 233–239);
non-path shapes are `todo!()` in Rust and unreachable in the builder
(`visit_lhs_expr` rejects them first). -/
def lhsTypeInfo : LhsE → TypeInfo
  | .path _ ti => ti
  | _ => .unknown

/-- Modelled from the spec: `IRType::from_type_info` of `ir/mod.rs` —
resolved primitive types map to IR operand types (`ir/tests.rs` fixes
`LitNum(I)`/`LitNum(I32) ↦ IRType::I32`); unresolved or non-primitive
types are an IR error (§7 "unresolvable operand type"). -/
def IRType.fromTypeInfo : TypeInfo → Except String IRType
  | .bool => .ok .bool
  | .char => .ok .char
  | .litNum .i => .ok .i32
  | .litNum .i8 => .ok .i8
  | .litNum .i16 => .ok .i16
  | .litNum .i32 => .ok .i32
  | .litNum .i64 => .ok .i64
  | .litNum .f32 => .ok .f32
  | .litNum .f => .ok .f64
  | .litNum .f64 => .ok .f64
  | _ => .error "unresolvable operand type"

/-- Integer-literal parsing (`str::parse::<iN>` / `parse::<uN>`): the
digit string's value must fit the width selected by the inferred literal
type (`visit_lit_num_expr`, lines 235–263).  Float widths are outside the
modelled fragment and rejected. -/
def mkLitOperand (t : TypeLitNum) (v : Int) : Except String Operand :=
  let range := fun (lo hi : Int) (mk : Int → Operand) =>
    if lo ≤ v ∧ v ≤ hi then Except.ok (mk v)
    else Except.error "int literal parse error"
  match t with
  | .i8 => range (-128) 127 Operand.i8
  | .i16 => range (-32768) 32767 Operand.i16
  | .i => range i32Min i32Max Operand.i32
  | .i32 => range i32Min i32Max Operand.i32
  | .i64 => range (-9223372036854775808) 9223372036854775807 Operand.i64
  | .i128 => range (-(2 ^ 127)) (2 ^ 127 - 1) Operand.i128
  | .isize => range (-9223372036854775808) 9223372036854775807 Operand.isize
  | .u8 => range 0 255 Operand.u8
  | .u16 => range 0 65535 Operand.u16
  | .u32 => range 0 4294967295 Operand.u32
  | .u64 => range 0 (2 ^ 64 - 1) Operand.u64
  | .u128 => range 0 (2 ^ 128 - 1) Operand.u128
  | .usize => range 0 (2 ^ 64 - 1) Operand.usize
  | .f => .error "float literal not modelled"
  | .f32 => .error "float literal not modelled"
  | .f64 => .error "float literal not modelled"

/-! ### The IR builder (`ir/ir_build.rs`)

`IRBuilder` state plus its output IR, threaded through a state-and-error
monad.  `Vec::push`/`pop` stacks are represented top-first.  Rust panics
that survive release builds (`assert!`, `unreachable!`, `unwrap`,
`todo!`, `unimplemented!`) are modelled as errors; `debug_assert!` is a
release no-op and is not modelled.  Instruction ids are 1-based
(`next_inst_id = len + 1`), so `0` never names an instruction and can
serve as the back-patch chain terminator. -/

/-- The `IRBuilder` state fused with its `ir_output`: emitted instructions,
the function table (`Func{name, first_inst_index}`), the read-only string
pool, the scope stack, the loop context stack `(break_dest, chain head)`,
the function-return temporaries, and the optimization level. -/
structure BuildState where
  insts : List IRInst
  funcs : List (String × Nat)
  roData : List String
  ss : ScopeStack
  loopStack : List (Option Place × Nat)
  fnRetVars : List Place
  optimizeLevel : OptimizeLevel
deriving DecidableEq, Repr

/-- The builder monad: state plus first-error abort (`Result<_, RccError>`
with the mutable `&mut self`). -/
def BuildM (α : Type) : Type := BuildState → Except String (α × BuildState)

instance : Monad BuildM where
  pure a := fun s => .ok (a, s)
  bind x g := fun s =>
    match x s with
    | .error e => .error e
    | .ok (a, s2) => g a s2

/-- Abort with an `RccError` message (also used for modelled panics). -/
def throwB {α : Type} (msg : String) : BuildM α := fun _ => .error msg

/-- Read the whole builder state. -/
def getB : BuildM BuildState := fun s => .ok (s, s)

/-- Apply a pure state update. -/
def modifyB (f : BuildState → BuildState) : BuildM Unit :=
  fun s => .ok ((), f s)

/-- Lift a pure `Result` into the monad (the `?` operator). -/
def liftE {α : Type} (x : Except String α) : BuildM α :=
  fun s =>
    match x with
    | .ok a => .ok (a, s)
    | .error e => .error e

/-- `IR::next_inst_id`: the 1-based id the next emitted instruction will
receive. -/
def nextInstId : BuildM Nat := fun s => .ok (s.insts.length + 1, s)

/-- `IR::add_instructions`. -/
def addInst (i : IRInst) : BuildM Unit :=
  modifyB (fun s => { s with insts := s.insts ++ [i] })

/-- `IR::get_inst_by_id` (read half): 1-based indexing; an out-of-range id
is a Rust panic. -/
def getInstById (id : Nat) : BuildM IRInst := fun s =>
  match s.insts.get? (id - 1) with
  | some i => .ok (i, s)
  | none => .error "instruction id out of range"

/-- Overwrite the instruction with the given 1-based id. -/
def setInstById (id : Nat) (i : IRInst) : BuildM Unit :=
  modifyB (fun s => { s with insts := s.insts.set (id - 1) i })

/-- `IR::add_func`: record the function name with its first instruction
index. -/
def addFunc (name : String) : BuildM Unit :=
  modifyB (fun s => { s with funcs := s.funcs ++ [(name, s.insts.length + 1)] })

/-- Modelled from the spec: `IR::add_ro_local_str` of `ir/mod.rs` — intern
a string literal in the read-only pool, reusing the label of an earlier
occurrence (§3: a read-only string pool mapping string → label,
labels `".str.<n>"` in position order). -/
def addRoLocalStr (str : String) : BuildM Operand := fun s =>
  match s.roData.findIdx? (fun t => t = str) with
  | some i => .ok (.roLabel (".str." ++ Nat.repr i), s)
  | none =>
    .ok (.roLabel (".str." ++ Nat.repr s.roData.length),
      { s with roData := s.roData ++ [str] })

/-- The back-patch walk (`while link != 0 { … }` of `visit_if_expr` and
`visit_loop_block`): read each chain member's stored link, overwrite its
target with the landing id, and continue at the stored link.  The fuel is
supplied as one more than the instruction count, which bounds every
well-formed chain; chain members that are not jumps are a modelled panic
(`jump_label` on a non-jump). -/
def patchChainLoop : Nat → Nat → Nat → BuildM Unit
  | 0, link, _ =>
    if link = 0 then pure () else throwB "patch fuel exhausted"
  | f + 1, link, nextIdx =>
    if link = 0 then pure ()
    else do
      let inst ← getInstById link
      match inst.getTarget with
      | none => throwB "back-patch chain member is not a jump"
      | some t => do
        setInstById link (inst.setTarget nextIdx)
        patchChainLoop f t nextIdx

/-- Run the back-patch walk with its canonical fuel. -/
def runPatch (link nextIdx : Nat) : BuildM Unit := fun s =>
  patchChainLoop (s.insts.length + 1) link nextIdx s

/-- `IRBuilder::gen_temp_variable`: delegate to the current scope and wrap
the fresh name as `Place::local`. -/
def genTempVariable (ti : TypeInfo) : BuildM Place := fun s =>
  let sid := s.ss.curScope
  let (label, sd2) := (s.ss.getScope sid).genTempVariable sid ti
  .ok (Place.localP label,
    { s with ss := s.ss.updateScope sid (fun _ => sd2) })

/-- `IRBuilder::gen_variable`: resolve `ident` through the scope stack
(the `unwrap` is a modelled panic) and build its named place. -/
def genVariable (ident : String) (kind : VarKind) : BuildM Place := fun s =>
  match findVariable s.ss.curChain ident with
  | some (_, scopeId) => .ok (Place.variableP ident scopeId kind, s)
  | none => .error "unwrap failed: variable not found in gen_variable"

/-- `ScopeStack::enter_scope` inside the builder. -/
def enterScopeB (blockScopeId : Nat) : BuildM Unit :=
  modifyB (fun s => { s with ss := s.ss.enterScope blockScopeId })

/-- `ScopeStack::exit_scope` inside the builder. -/
def exitScopeB : BuildM Unit :=
  modifyB (fun s => { s with ss := s.ss.exitScope })

/-- `ScopeStack::enter_file`: make the file scope current. -/
def enterFileB (fileScopeId : Nat) : BuildM Unit :=
  modifyB (fun s => { s with ss := { s.ss with curScope := fileScopeId } })

/-- `loop_var_stack.push`. -/
def pushLoop (entry : Option Place × Nat) : BuildM Unit :=
  modifyB (fun s => { s with loopStack := entry :: s.loopStack })

/-- `loop_var_stack.pop().unwrap()`. -/
def popLoop : BuildM (Option Place × Nat) := fun s =>
  match s.loopStack with
  | [] => .error "unwrap failed: loop_var_stack is empty"
  | top :: rest => .ok (top, { s with loopStack := rest })

/-- `loop_var_stack.last_mut().unwrap()` (read). -/
def peekLoop : BuildM (Option Place × Nat) := fun s =>
  match s.loopStack with
  | [] => .error "unwrap failed: loop_var_stack is empty"
  | top :: _ => .ok (top, s)

/-- `*loop_start_id = jump_id` through `last_mut()`. -/
def setTopLoopLink (n : Nat) : BuildM Unit := fun s =>
  match s.loopStack with
  | [] => .error "unwrap failed: loop_var_stack is empty"
  | (d, _) :: rest => .ok ((), { s with loopStack := (d, n) :: rest })

/-- `fn_ret_temp_var.push`. -/
def pushFnRet (p : Place) : BuildM Unit :=
  modifyB (fun s => { s with fnRetVars := p :: s.fnRetVars })

/-- `fn_ret_temp_var.pop()` — the Rust call discards the `Option`. -/
def popFnRet : BuildM Unit :=
  modifyB (fun s => { s with fnRetVars := s.fnRetVars.tail })

/-- `fn_ret_temp_var.last().unwrap()`. -/
def peekFnRet : BuildM Place := fun s =>
  match s.fnRetVars with
  | [] => .error "unwrap failed: fn_ret_temp_var is empty"
  | top :: _ => .ok (top, s)

/-- `IRBuilder::lit`: store a literal operand only when the destination is
a named (non-temporary) place. -/
def litB (operand : Operand) (d : Place) : BuildM Operand := do
  if !d.isTemp then addInst (.loadData d operand) else pure ()
  pure operand

/-- `IRBuilder::bin_op`: emit the three-address instruction and return the
destination place. -/
def binOpB (lhs rhs : Operand) (op : BinOperator) (irType : IRType)
    (dest : Place) : BuildM Operand := do
  addInst (.binOp op irType dest lhs rhs)
  pure (.place dest)

/-- `IRBuilder::visit_path_expr`: resolve the last path segment to a
variable (emitting a `LoadData` into a named destination) or to a function
label; otherwise fail. -/
def visitPathExpr (segments : List String) (dest : Option Place) :
    BuildM Operand := fun s =>
  match segments.getLast? with
  | none => .error "unwrap failed: empty path"
  | some ident =>
    let chain := s.ss.curChain
    match findVariable chain ident with
    | some (var, scopeId) =>
      let operand := Operand.place (Place.variableP ident scopeId var.kind)
      (do
        match dest with
        | some d =>
          if !d.isTemp then addInst (.loadData d operand) else pure ()
        | none => pure ()
        pure operand) s
    | none =>
      if !(findFnChain ident chain).isUnknown then .ok (.fnLabel ident, s)
      else .error "error in visit path expr: ident not found"

/-- `IRBuilder::visit_lit_num_expr`: with a destination, parse the literal
at the inferred width and run `lit`; without one, yield `Unit`. -/
def visitLitNum (v : Int) (lit : TypeLitNum) (dest : Option Place) :
    BuildM Operand :=
  match dest with
  | some d => do
    let operand ← liftE (mkLitOperand lit v)
    litB operand d
  | none => pure .unit

/-- `IRBuilder::visit_lit_bool`. -/
def visitLitBool (b : Bool) (dest : Option Place) : BuildM Operand :=
  match dest with
  | some d => litB (.bool b) d
  | none => pure .unit

/-- `IRBuilder::visit_lit_char`. -/
def visitLitChar (c : Char) (dest : Option Place) : BuildM Operand :=
  match dest with
  | some d => litB (.char c) d
  | none => pure .unit

/-- The compound-assignment operator table of `visit_assign_expr`
(`AssignOp::Eq ↦ none`; `op= ↦ some op`). -/
def assignOpToBin : AssignOp → Option BinOperator
  | .eq => none
  | .shrEq => some .shr
  | .shlEq => some .shl
  | .plusEq => some .plus
  | .minusEq => some .minus
  | .starEq => some .star
  | .slashEq => some .slash
  | .percentEq => some .percent
  | .andEq => some .and
  | .orEq => some .or
  | .caretEq => some .caret

/-- The visit requests of the mutually recursive `IRBuilder` visitors,
packed into one type so the interpreter recurses structurally on fuel. -/
inductive Vq where
  | exprQ (e : Expr) (dest : Option Place)
  | lhsQ (l : LhsE)
  | blockQ (b : BlockE) (dest : Option Place)
  | stmtListQ (stmts : List Stmt)
  | stmtQ (st : Stmt)
  | letQ (ident : String) (isMut : Bool) (rhs : Option Expr)
  | itemListQ (items : List ItemAst)
  | itemQ (it : ItemAst)
  | itemFnQ (name : String) (fnBlock : BlockE)
  | binOpQ (lhs : Expr) (op : BinOperator) (rhs : Expr) (ti : TypeInfo)
      (dest : Option Place)
  | assignQ (lhs : LhsE) (op : AssignOp) (rhs : Expr)
  | callQ (callee : Expr) (params : List Expr) (ti : TypeInfo)
      (dest : Option Place)
  | argListQ (params : List Expr) (acc : List Operand)
  | whileQ (cond : Expr) (body : BlockE)
  | loopQ (body : BlockE) (dest : Option Place)
  | loopBlockQ (body : BlockE) (loopStartId : Nat)
  | ifQ (conditions : List Expr) (blocks : List BlockE) (dest : Option Place)
  | ifArmsQ (conds : List Expr) (i : Nat) (blocks : List BlockE)
      (dest : Option Place) (link : Nat)
  | jcondQ (l r : Expr) (ti : TypeInfo) (jk : JumpKind) (link : Nat)
      (rev : Bool)
  | retQ (e : Option Expr) (dest : Option Place)
  | breakQ (e : Option Expr) (dest : Option Place)

/-- Results of the packed visitors: an operand, an argument list, a
back-patch link, or nothing. -/
inductive Vres where
  | op (o : Operand)
  | ops (l : List Operand)
  | link (n : Nat)
  | unitR
deriving DecidableEq, Repr

/-- Project an operand result (other shapes cannot occur at operand call
sites). -/
def expectOp : Vres → BuildM Operand
  | .op o => pure o
  | _ => throwB "internal: expected operand result"

/-- Project an argument-list result. -/
def expectOps : Vres → BuildM (List Operand)
  | .ops l => pure l
  | _ => throwB "internal: expected operand list result"

/-- Project a back-patch-link result. -/
def expectLink : Vres → BuildM Nat
  | .link n => pure n
  | _ => throwB "internal: expected link result"

/-- The `IRBuilder` visitors of `ir_build.rs`, packed into one fueled
interpreter (one fuel unit per visitor-to-visitor call).  Each arm is a
line-by-line transcription of the corresponding Rust method; comments name
the method. -/
def visitQ : Nat → Vq → BuildM Vres
  | 0, _ => throwB "fuel exhausted"
  | f + 1, q =>
    match q with
    -- visit_expr (dispatch, lines 139–173)
    | .exprQ e dest =>
      match e with
      | .path segs _ => do
        let o ← visitPathExpr segs dest
        pure (.op o)
      | .litNum v lit => do
        let o ← visitLitNum v lit dest
        pure (.op o)
      | .litBool b => do
        let o ← visitLitBool b dest
        pure (.op o)
      | .litChar c => do
        let o ← visitLitChar c dest
        pure (.op o)
      | .litStr str => do
        let o ← addRoLocalStr str
        pure (.op o)
      | .unary _ _ _ => throwB "todo: visit unary expr"
      | .block b => visitQ f (.blockQ b dest)
      | .assign lhs op rhs => visitQ f (.assignQ lhs op rhs)
      | .binOp l op r ti => visitQ f (.binOpQ l op r ti dest)
      | .grouped e2 => visitQ f (.exprQ e2 dest)
      | .call callee params ti => visitQ f (.callQ callee params ti dest)
      | .whileE cond body => visitQ f (.whileQ cond body)
      | .loopE body _ => visitQ f (.loopQ body dest)
      | .ifE conds blocks _ => visitQ f (.ifQ conds blocks dest)
      | .retE e2 => visitQ f (.retQ e2 dest)
      | .breakE e2 => visitQ f (.breakQ e2 dest)
      | _ => throwB "unimplemented expr kind"
    -- visit_lhs_expr (lines 175–181)
    | .lhsQ l =>
      match l with
      | .path segs _ => do
        let o ← visitPathExpr segs none
        pure (.op o)
      | _ => throwB "todo: visit lhs expr"
    -- visit_block_expr (lines 297–323)
    | .blockQ b dest => do
      enterScopeB b.scopeId
      let _ ← visitQ f (.stmtListQ b.stmts)
      let res ← (match b.lastExpr with
        | some e => do
          let isNone := dest.isNone
          let r ← visitQ f (.exprQ e dest)
          let o ← expectOp r
          if isNone && !o.isUnitOrNever then
            throwB ("error in visiting block expr: expected `()`, found "
              ++ o.debugStr)
          else pure o
        | none => pure Operand.unit)
      exitScopeB
      pure (.op res)
    | .stmtListQ stmts =>
      match stmts with
      | [] => pure .unitR
      | st :: rest => do
        let _ ← visitQ f (.stmtQ st)
        visitQ f (.stmtListQ rest)
    -- visit_stmt (lines 105–116); its debug_assert! is a release no-op
    | .stmtQ st =>
      match st with
      | .semi => pure .unitR
      | .item it => visitQ f (.itemQ it)
      | .letStmt ident isMut rhs => visitQ f (.letQ ident isMut rhs)
      | .exprStmt e => do
        let _ ← visitQ f (.exprQ e none)
        pure .unitR
    -- visit_let_stmt (lines 118–137)
    | .letQ ident isMut rhs =>
      match rhs with
      | some r => do
        let dest ← genVariable ident (if isMut then .localMut else .localVar)
        let _ ← visitQ f (.exprQ r (some dest))
        pure .unitR
      | none => pure .unitR
    | .itemListQ items =>
      match items with
      | [] => pure .unitR
      | it :: rest => do
        let _ ← visitQ f (.itemQ it)
        visitQ f (.itemListQ rest)
    -- visit_item (lines 73–79)
    | .itemQ it =>
      match it with
      | .fnItem name blk => visitQ f (.itemFnQ name blk)
      | .structItem _ => throwB "unimplemented: visit_item_struct"
    -- visit_item_fn (lines 81–99)
    | .itemFnQ name fnBlock => do
      addFunc name
      let s ← getB
      let info := findFnChain name s.ss.curChain
      if info = TypeInfo.fnDef name then pure ()
      else throwB "assertion failed in visit_item_fn: fn type info mismatch"
      let dest ← genTempVariable fnBlock.typeInfo
      pushFnRet dest
      let r ← visitQ f (.blockQ fnBlock (some dest))
      let operand ← expectOp r
      if fnBlock.lastExpr.isNone && fnBlock.stmts.isEmpty then
        addInst (.ret .unit)
      else if !fnBlock.lastStmtIsReturn then
        addInst (.ret operand)
      else pure ()
      popFnRet
      pure .unitR
    -- visit_bin_op_expr (lines 384–415)
    | .binOpQ lhs op rhs ti dest => do
      let d1 ← genTempVariable (exprTypeInfo lhs)
      let r1 ← visitQ f (.exprQ lhs (some d1))
      let l ← expectOp r1
      let d2 ← genTempVariable (exprTypeInfo rhs)
      let r2 ← visitQ f (.exprQ rhs (some d2))
      let r ← expectOp r2
      let irType ← liftE (IRType.fromTypeInfo ti)
      let foldOption ← liftE (binOpMayConstantFold op l r)
      match dest with
      | some d => do
        let s ← getB
        match s.optimizeLevel with
        | .zero => do
          let o ← binOpB l r op irType d
          pure (.op o)
        | .one =>
          match foldOption with
          | some operand => do
            let o ← litB operand d
            pure (.op o)
          | none => do
            let o ← binOpB l r op irType d
            pure (.op o)
      | none => pure (.op .unit)
    -- visit_assign_expr (lines 325–365); the compound cases share one
    -- body in Rust via the add_inst! macro, tabulated by assignOpToBin
    | .assignQ lhs aop rhs => do
      let r0 ← visitQ f (.lhsQ lhs)
      let operand ← expectOp r0
      let p ← (match operand with
        | .place p => pure p
        | _ => throwB "unimplemented: assign lhs is not a place")
      let t ← liftE (IRType.fromTypeInfo (lhsTypeInfo lhs))
      match assignOpToBin aop with
      | none => do
        let _ ← visitQ f (.exprQ rhs (some p))
        pure (.op Operand.unit)
      | some bop => do
        let rhsDest ← genTempVariable (lhsTypeInfo lhs)
        let r2 ← visitQ f (.exprQ rhs (some rhsDest))
        let rhsOp ← expectOp r2
        addInst (.binOp bop t p (.place p) rhsOp)
        pure (.op Operand.unit)
    -- visit_call_expr (lines 504–527)
    | .callQ callee params ti dest => do
      let calleePlace ← genTempVariable ti
      let rc ← visitQ f (.exprQ callee (some calleePlace))
      let calleeOp ← expectOp rc
      let ra ← visitQ f (.argListQ params [])
      let args ← expectOps ra
      addInst (.call calleeOp args)
      match dest with
      | some d => do
        addInst (.loadData d .fnRetPlace)
        pure (.op (.place d))
      | none => pure (.op .unit)
    | .argListQ params acc =>
      match params with
      | [] => pure (.ops acc)
      | e :: rest => do
        let paramPlace ← genTempVariable (exprTypeInfo e)
        let r ← visitQ f (.exprQ e (some paramPlace))
        let o ← expectOp r
        visitQ f (.argListQ rest (acc ++ [o]))
    -- visit_while_expr (lines 555–608)
    | .whileQ cond body => do
      let loopStartId ← nextInstId
      let link ← (match cond with
        | .binOp l bop r ti =>
          match bop with
          | .andAnd => throwB "todo: logic bin expr in condition"
          | .orOr => throwB "todo: logic bin expr in condition"
          | .ne => do
            let rr ← visitQ f (.jcondQ l r ti .jEq 0 false)
            expectLink rr
          | .eqEq => do
            let rr ← visitQ f (.jcondQ l r ti .jNe 0 false)
            expectLink rr
          | .le => do
            let rr ← visitQ f (.jcondQ l r ti .jLt 0 true)
            expectLink rr
          | .lt => do
            let rr ← visitQ f (.jcondQ l r ti .jGe 0 false)
            expectLink rr
          | .gt => do
            let rr ← visitQ f (.jcondQ l r ti .jGe 0 true)
            expectLink rr
          | .ge => do
            let rr ← visitQ f (.jcondQ l r ti .jLt 0 false)
            expectLink rr
          | _ => do
            let d ← genTempVariable ti
            let rr ← visitQ f (.binOpQ l bop r ti (some d))
            let operand ← expectOp rr
            let newLink ← nextInstId
            addInst (.jumpIfNot operand 0)
            pure newLink
        | e => do
          let d ← genTempVariable (exprTypeInfo e)
          let rr ← visitQ f (.exprQ e (some d))
          let operand ← expectOp rr
          let newLink ← nextInstId
          addInst (.jumpIfNot operand 0)
          pure newLink)
      pushLoop (none, link)
      let _ ← visitQ f (.loopBlockQ body loopStartId)
      pure (.op .unit)
    -- visit_loop_expr (lines 610–622)
    | .loopQ body dest => do
      let loopStartId ← nextInstId
      pushLoop (dest, 0)
      let _ ← visitQ f (.loopBlockQ body loopStartId)
      match dest with
      | some p => pure (.op (.place p))
      | none => pure (.op .never)
    -- visit_loop_block (lines 536–552)
    | .loopBlockQ body loopStartId => do
      let r ← visitQ f (.blockQ body none)
      let operand ← expectOp r
      if !operand.isUnitOrNever then
        throwB "assertion failed: loop block operand is not unit or never"
      else pure ()
      addInst (.jump loopStartId)
      let dl ← popLoop
      let nextId ← nextInstId
      runPatch dl.2 nextId
      pure .unitR
    -- visit_if_expr (lines 723–807)
    | .ifQ conds blocks dest => do
      let r ← visitQ f (.ifArmsQ conds 0 blocks dest 0)
      let link ← expectLink r
      if blocks.length = conds.length + 1 then
        match blocks.getLast? with
        | some b => do
          let _ ← visitQ f (.blockQ b dest)
          pure ()
        | none => throwB "unwrap failed: missing else block"
      else pure ()
      let nextIdx ← nextInstId
      runPatch link nextIdx
      match dest with
      | some d => pure (.op (.place d))
      | none => pure (.op .unit)
    -- the condition/block loop of visit_if_expr, including the
    -- visit_block! macro (lines 730–739)
    | .ifArmsQ conds i blocks dest link =>
      match conds with
      | [] => pure (.link link)
      | cond :: rest => do
        let link1 ← (match cond with
          | .binOp l bop r ti =>
            match bop with
            | .andAnd => throwB "todo: logic bin expr in condition"
            | .orOr => throwB "todo: logic bin expr in condition"
            | .ne => do
              let rr ← visitQ f (.jcondQ l r ti .jEq link false)
              expectLink rr
            | .eqEq => do
              let rr ← visitQ f (.jcondQ l r ti .jNe link false)
              expectLink rr
            | .le => do
              let rr ← visitQ f (.jcondQ l r ti .jLt link true)
              expectLink rr
            | .lt => do
              let rr ← visitQ f (.jcondQ l r ti .jGe link false)
              expectLink rr
            | .gt => do
              let rr ← visitQ f (.jcondQ l r ti .jGe link true)
              expectLink rr
            | .ge => do
              let rr ← visitQ f (.jcondQ l r ti .jLt link false)
              expectLink rr
            | _ => do
              let d ← genTempVariable ti
              let rr ← visitQ f (.binOpQ l bop r ti (some d))
              let operand ← expectOp rr
              let newLink ← nextInstId
              addInst (.jumpIfNot operand link)
              pure newLink
          | e => do
            let d ← genTempVariable (exprTypeInfo e)
            let rr ← visitQ f (.exprQ e (some d))
            let operand ← expectOp rr
            let newLink ← nextInstId
            addInst (.jumpIfNot operand link)
            pure newLink)
        match blocks.get? i with
        | none => throwB "unwrap failed: missing if block"
        | some b => do
          let _ ← visitQ f (.blockQ b dest)
          let link2 ← (if i ≠ blocks.length - 1 then do
              addInst (.jump link1)
              let nid ← nextInstId
              pure (nid - 1)
            else pure link1)
          visitQ f (.ifArmsQ rest (i + 1) blocks dest link2)
    -- gen_jump_cond / gen_jump_cond_reverse (lines 809–839)
    | .jcondQ l r ti jk link rev => do
      let d1 ← genTempVariable ti
      let rl ← visitQ f (.exprQ l (some d1))
      let lo ← expectOp rl
      let d2 ← genTempVariable ti
      let rr ← visitQ f (.exprQ r (some d2))
      let ro ← expectOp rr
      let newLink ← nextInstId
      addInst (if rev then .jumpIfCond jk ro lo link
        else .jumpIfCond jk lo ro link)
      pure (.link newLink)
    -- visit_return_expr (lines 841–864)
    | .retQ e dest => do
      (match e with
        | some ex => do
          let retPlace ← peekFnRet
          let r ← visitQ f (.exprQ ex (some retPlace))
          let o ← expectOp r
          addInst (.ret o)
        | none => addInst (.ret .unit))
      match dest with
      | some d => do
        addInst (.loadData d .never)
        pure (.op (.place d))
      | none => pure (.op .never)
    -- visit_break_expr (lines 866–904)
    | .breakQ e dest => do
      let bp ← peekLoop
      (match e with
        | some ex =>
          match bp.1 with
          | some p => do
            let tempV ← genTempVariable (exprTypeInfo ex)
            let r ← visitQ f (.exprQ ex (some tempV))
            let rhs ← expectOp r
            addInst (.loadData p rhs)
          | none => throwB "unreachable: break expr has ret value"
        | none =>
          if bp.1.isSome then
            throwB "unreachable: break expr shouldn't follow expr"
          else pure ())
      let jumpId ← nextInstId
      let bp2 ← peekLoop
      addInst (.jump bp2.2)
      setTopLoopLink jumpId
      match dest with
      | some d => do
        addInst (.loadData d .never)
        pure (.op (.place d))
      | none => pure (.op .never)

/-- `File` of `ast/file.rs` as the builder consumes it: top-level items
plus the file scope's id. -/
structure FileAst where
  items : List ItemAst
  scopeId : Nat

/-- A resolved program: the file, the resolver-produced scope table
(including the builtin scope under id 0 and every block scope keyed by
its parse-time id), and the optimization level. -/
structure Program where
  file : FileAst
  scopes : List (Nat × ScopeData)
  optimizeLevel : OptimizeLevel

/-- The `IR` output (`ir/mod.rs`): function table, flat instruction list,
read-only data. -/
structure IRData where
  funcs : List (String × Nat)
  instructions : List IRInst
  roData : List String
deriving DecidableEq, Repr

/-- `IRBuilder::visit_file`: enter the file scope and visit every item. -/
def visitFile (fuel : Nat) (file : FileAst) : BuildM Unit := do
  enterFileB file.scopeId
  let _ ← visitQ fuel (.itemListQ file.items)
  pure ()

/-- The initial builder state for a resolved program
(`IRBuilder::new`). -/
def initState (p : Program) : BuildState :=
  { insts := [], funcs := [], roData := [],
    ss := { curScope := 0, stack := [], heap := p.scopes },
    loopStack := [], fnRetVars := [],
    optimizeLevel := p.optimizeLevel }

/-- `IRBuilder::generate_ir`: run the builder on a resolved program and
extract the IR. -/
def generateIR (fuel : Nat) (p : Program) : Except String IRData :=
  match visitFile fuel p.file (initState p) with
  | .error e => .error e
  | .ok (_, s) => .ok ⟨s.funcs, s.insts, s.roData⟩

/-! ### Concrete resolved programs

Resolved ASTs for the spec's end-to-end scenarios.  Scope ids follow the
parse-time numbering the repository's own tests exhibit (`ir/tests.rs`
expects `a_2` and `$0_1`): builtin scope 0, file scope 1, function block
2, further blocks 3, 4, ….  The scope tables hold what the symbol
resolver leaves behind: the hoisted `fn` types in the file scope and the
`let`-introduced variables (stamped with their statement ids) in the
block scopes; block `cur_stmt_id`s retain their final resolver values
(`exit_scope` resets the scope being returned *into*, not the exited
block). -/

/-- The process-wide builtin scope (`BULITIN_SCOPE`, `scope.rs` lines
17–39), restricted to the primitive names the programs below mention. -/
def builtinScope : ScopeData :=
  { father := none,
    types := [("bool", .bool), ("char", .char), ("str", .str),
      ("i32", .litNum .i32), ("i64", .litNum .i64), ("u64", .litNum .u64)],
    vars := [], curStmtId := 0, tempCount := 0 }

/-- The resolver-produced file scope for a single `fn main`. -/
def mainFileScope : ScopeData :=
  { father := some 0, types := [("main", .fnDef "main")],
    vars := [], curStmtId := 0, tempCount := 0 }

/-- `fn main() { let a = 2 + 3; }` after resolution (spec §8 scenario 1,
mirrored by `test_ir_builder` in `ir/tests.rs`). -/
def letAddProgram (lvl : OptimizeLevel) : Program :=
  { file := { items := [ItemAst.fnItem "main" (BlockE.mk
      [Stmt.letStmt "a" false (some (Expr.binOp (.litNum 2 .i) .plus
        (.litNum 3 .i) (.litNum .i)))] none 2 .unit)], scopeId := 1 },
    scopes :=
      [(0, builtinScope),
       (1, mainFileScope),
       (2, { father := none, types := [],
             vars := [("a", [⟨1, .localVar, .litNum .i⟩])],
             curStmtId := 1, tempCount := 0 })],
    optimizeLevel := lvl }

/-- `fn main() { let mut x = 0; if x < 10 { } else { x = 1; } }` after
resolution — spec §8 scenario 8's shape with a nonempty else block. -/
def ifElseProgram : Program :=
  { file := { items := [ItemAst.fnItem "main" (BlockE.mk
      [Stmt.letStmt "x" true (some (.litNum 0 .i)),
       Stmt.exprStmt (Expr.ifE
         [Expr.binOp (.path ["x"] (.litNum .i32)) .lt (.litNum 10 .i) .bool]
         [BlockE.mk [] none 3 .unit,
          BlockE.mk [Stmt.exprStmt (Expr.assign
            (LhsE.path ["x"] (.litNum .i32)) .eq (.litNum 1 .i))] none 4
            .unit]
         .unit)]
      none 2 .unit)], scopeId := 1 },
    scopes :=
      [(0, builtinScope),
       (1, mainFileScope),
       (2, { father := none, types := [],
             vars := [("x", [⟨1, .localMut, .litNum .i⟩])],
             curStmtId := 2, tempCount := 0 }),
       (3, ScopeData.newScope),
       (4, ScopeData.newScope)],
    optimizeLevel := .zero }

/-- `fn main() { let mut x = 0; while x < 10 { x = 1; } }` after
resolution. -/
def whileProgram : Program :=
  { file := { items := [ItemAst.fnItem "main" (BlockE.mk
      [Stmt.letStmt "x" true (some (.litNum 0 .i)),
       Stmt.exprStmt (Expr.whileE
         (Expr.binOp (.path ["x"] (.litNum .i32)) .lt (.litNum 10 .i) .bool)
         (BlockE.mk [Stmt.exprStmt (Expr.assign
            (LhsE.path ["x"] (.litNum .i32)) .eq (.litNum 1 .i))] none 3
            .unit))]
      none 2 .unit)], scopeId := 1 },
    scopes :=
      [(0, builtinScope),
       (1, mainFileScope),
       (2, { father := none, types := [],
             vars := [("x", [⟨1, .localMut, .litNum .i⟩])],
             curStmtId := 2, tempCount := 0 }),
       (3, ScopeData.newScope)],
    optimizeLevel := .zero }

/-! ## Claim theorems -/

/-- C1: compiling `fn main() { let a = 2 + 3; }` at optimize level Zero
yields exactly one `BinOp{Plus, I32, a_2, I32(2), I32(3)}` followed by
`Ret(Unit)`; at level One the `BinOp` is replaced by
`LoadData(a_2, I32(5))` (the concrete scope id 2 is the one the
repository's `test_ir_builder` fixes for `<sid>`). -/
theorem c1_let_add_ir :
    (generateIR 32 (letAddProgram .zero)).map IRData.instructions =
      .ok [.binOp .plus .i32 (Place.localP "a_2") (.i32 2) (.i32 3),
        .ret .unit] ∧
    (generateIR 32 (letAddProgram .one)).map IRData.instructions =
      .ok [.loadData (Place.localP "a_2") (.i32 5), .ret .unit] :=
  ⟨by decide, by decide⟩

set_option maxHeartbeats 2000000 in
/-- C4: compiling `fn main() { let mut x = 0; if x < 10 { } else { x = 1; } }`
emits the fused `JumpIfCond{JGe, x_2, 10, _}` (instruction 2), the empty
then-block, the end `Jump` (instruction 3), then the else block
(instruction 4).  Both pending jumps are threaded into the *same*
back-patch chain, so the final patch loop sends the `JumpIfCond` to
instruction 5 — the instruction after the whole `if` — instead of 4, the
start of the else branch, leaving the else block unreachable.  The first
conjunct evaluates the builder; the second refutes the claimed (and
doc-commented) target `after_then = 4`. -/
theorem c4_if_else_fused_jump_targets_end :
    (generateIR 64 ifElseProgram).map IRData.instructions =
      .ok [.loadData (Place.variableP "x" 2 .localMut) (.i32 0),
        .jumpIfCond .jGe (.place (Place.variableP "x" 2 .localMut))
          (.i32 10) 5,
        .jump 5,
        .loadData (Place.variableP "x" 2 .localMut) (.i32 1),
        .ret .unit] ∧
    ¬ (generateIR 64 ifElseProgram).map IRData.instructions =
      .ok [.loadData (Place.variableP "x" 2 .localMut) (.i32 0),
        .jumpIfCond .jGe (.place (Place.variableP "x" 2 .localMut))
          (.i32 10) 4,
        .jump 5,
        .loadData (Place.variableP "x" 2 .localMut) (.i32 1),
        .ret .unit] :=
  ⟨by decide, by decide⟩

/-! #### C6 — exit_scope -/

/-- Point lookup after a point update at the same key. -/
theorem lookupN_map_update {α : Type} (heap : List (Nat × α)) (id : Nat)
    (f : α → α) :
    lookupN (heap.map (fun p => if p.1 = id then (p.1, f p.2) else p)) id =
      (lookupN heap id).map f := by
  induction heap with
  | nil => rfl
  | cons h t ih =>
    obtain ⟨k, v⟩ := h
    simp only [List.map_cons]
    by_cases hk : k = id
    · subst hk
      simp [lookupN]
    · simp [lookupN, hk, ih]

/-- Point lookup after a point update at a different key. -/
theorem lookupN_map_update_ne {α : Type} (heap : List (Nat × α))
    (id id2 : Nat) (f : α → α) (h : id2 ≠ id) :
    lookupN (heap.map (fun p => if p.1 = id then (p.1, f p.2) else p)) id2 =
      lookupN heap id2 := by
  induction heap with
  | nil => rfl
  | cons hd t ih =>
    obtain ⟨k, v⟩ := hd
    simp only [List.map_cons]
    by_cases hk : k = id
    · subst hk
      simp [lookupN, Ne.symm h, ih]
    · by_cases hk2 : k = id2 <;> simp [lookupN, hk, hk2, ih, h]

/-- A scope stack about to exit a block: the block scope 2 (with
`cur_stmt_id = 5`) is current, its parent scope 1 (with
`cur_stmt_id = 7`) was pushed by `enter_scope`. -/
def c6Stack : ScopeStack :=
  { curScope := 2, stack := [1],
    heap := [(1, { father := some 0, types := [], vars := [],
                   curStmtId := 7, tempCount := 0 }),
             (2, { father := some 1, types := [], vars := [],
                   curStmtId := 5, tempCount := 0 })] }

/-- C6 counterexample: on `c6Stack`, `exit_scope` leaves the exited
scope's (scope 2's) `cur_stmt_id` at 5 — it is *not* reset to zero; the
reset hits the popped parent scope 1 instead. -/
theorem c6_exit_scope_counterexample :
    ((c6Stack.exitScope).getScope 2).curStmtId = 5 ∧
    ¬ ((c6Stack.exitScope).getScope 2).curStmtId = 0 ∧
    ((c6Stack.exitScope).getScope 1).curStmtId = 0 ∧
    (c6Stack.exitScope).curScope = 1 :=
  ⟨by decide, by decide, by decide, by decide⟩

/-- C6 (amended): for every `exit_scope` on a non-empty stack, the scope
popped from the stack becomes current and *its* `cur_stmt_id` is reset to
zero, while every other scope — in particular the block scope just
exited, whenever it is distinct from the popped scope — is left
untouched.  When the stack entry is the exited scope's father (as
`enter_scope` arranges), the current scope thus becomes the exited
scope's parent. -/
theorem c6_exit_scope_resets_popped_parent (ss : ScopeStack) (top : Nat)
    (rest : List Nat) (h : ss.stack = top :: rest) :
    (ss.exitScope).curScope = top ∧
    (ss.exitScope).stack = rest ∧
    ((ss.exitScope).getScope top).curStmtId = 0 ∧
    (∀ id, id ≠ top → (ss.exitScope).getScope id = ss.getScope id) := by
  obtain ⟨cur, stk, heap⟩ := ss
  subst h
  refine ⟨rfl, rfl, ?_, ?_⟩
  · show ((lookupN (heap.map (fun p => if p.1 = top then
        (p.1, { p.2 with curStmtId := 0 }) else p)) top).getD
        default).curStmtId = 0
    rw [lookupN_map_update heap top (fun sd => { sd with curStmtId := 0 })]
    cases lookupN heap top <;> rfl
  · intro id hid
    show (lookupN (heap.map (fun p => if p.1 = top then
        (p.1, { p.2 with curStmtId := 0 }) else p)) id).getD default =
      (lookupN heap id).getD default
    rw [lookupN_map_update_ne heap top id
      (fun sd => { sd with curStmtId := 0 }) hid]

/-- Witness for `c6_exit_scope_resets_popped_parent` at `c6Stack`. -/
theorem c6_exit_scope_resets_popped_parent_witness :
    (c6Stack.exitScope).curScope = 1 ∧
    ((c6Stack.exitScope).getScope 1).curStmtId = 0 ∧
    (∀ id, id ≠ 1 → (c6Stack.exitScope).getScope id = c6Stack.getScope id) := by
  obtain ⟨h1, _, h3, h4⟩ :=
    c6_exit_scope_resets_popped_parent c6Stack 1 [] (by decide)
  exact ⟨h1, h3, h4⟩

/-! #### C8 — LhsExpr::from_expr -/

/-- The spec's enumeration of accepted assignment left-hand sides: a path,
an array index, a tuple index, a field access, or a `*`-dereference,
looking through grouped parentheses.  (Spec-side predicate, to be
compared with the source's `LhsExpr::from_expr`.) -/
def isSpecLhsForm : Expr → Bool
  | .path _ _ => true
  | .unary op _ _ => op = .deref
  | .grouped e => isSpecLhsForm e
  | .arrayIndex _ _ => true
  | .tupleIndex _ => true
  | .fieldAccess _ _ => true
  | _ => false

/-- C8: converting an expression to an assignment LHS succeeds exactly on
the spec's accepted forms (path, array index, tuple index, field access,
`*`-dereference, through grouped parentheses), and every other expression
form fails with precisely "invalid lhs expr". -/
theorem c8_from_expr_accepts_exactly_lhs_forms (e : Expr) :
    ((LhsE.fromExpr e).isOk ↔ isSpecLhsForm e = true) ∧
    (isSpecLhsForm e = false →
      LhsE.fromExpr e = .error "invalid lhs expr") := by
  induction e using isSpecLhsForm.induct <;>
    simp_all [LhsE.fromExpr, isSpecLhsForm, Except.isOk, Except.toBool]
  rename_i op _ _
  rcases eq_or_ne op UnOp.deref with h | h <;> simp [h]

/-- Witness for `c8_from_expr_accepts_exactly_lhs_forms`: the literal
`true` is not an accepted LHS form and fails with the exact message. -/
theorem c8_from_expr_witness :
    isSpecLhsForm (.litBool true) = false ∧
    LhsE.fromExpr (.litBool true) = .error "invalid lhs expr" :=
  ⟨by decide,
    (c8_from_expr_accepts_exactly_lhs_forms (.litBool true)).2 (by decide)⟩

/-! #### C7 — update_variable_type -/

/-- A one-scope chain defining `a : Bool` (single entry, statement id 1),
queried at `cur_stmt_id = 2`. -/
def c7Chain : List (Nat × ScopeData) :=
  [(3, { father := none, types := [],
         vars := [("a", [⟨1, .localVar, .bool⟩])],
         curStmtId := 2, tempCount := 0 })]

/-- C7 counterexample: `update_variable_type("a", Never)` on `c7Chain`
*succeeds* (returning the chain unchanged — the write is skipped), while
the claim says any `Never` update must fail with "invalid type".
`Never ≤ Bool` in the partial order, so the comparison lands in the
`Greater` arm and the function returns `Ok(())` without writing. -/
theorem c7_never_update_succeeds :
    updateVariableType c7Chain "a" .never = .ok c7Chain ∧
    ¬ updateVariableType c7Chain "a" .never = .error "invalid type" :=
  ⟨by decide, by decide⟩

/-- C7 (amended): for a visible variable `x` whose first defining scope
holds a single entry `e` (multi-entry scopes can hit the out-of-bounds
`get_unchecked` of `find_variable_mut`), `update_variable_type(x, T)`
succeeds iff `T` is less-or-equal to the current type under the partial
order (`partial_cmp(current, T) ∈ {Greater, Equal}`); on success the
entry's type is overwritten with `T` unless `T` is `Never`, in which case
the call still succeeds but writes nothing; otherwise — `T` strictly
greater or incomparable — it fails with exactly "invalid type". -/
theorem c7_update_variable_type_characterization (q : Nat) (x : String)
    (newT : TypeInfo) (pre : List (Nat × ScopeData)) (sid : Nat)
    (sd : ScopeData) (rest : List (Nat × ScopeData)) (e : VarInfo)
    (hpre : ∀ p ∈ pre, lookupA p.2.vars x = none)
    (hfound : lookupA sd.vars x = some [e]) :
    ((∃ c2, updateVariableTypeChain q x newT (pre ++ (sid, sd) :: rest) =
        .ok c2) ↔
      (TypeInfo.partialCmp e.typeInfo newT = some .gt ∨
       TypeInfo.partialCmp e.typeInfo newT = some .eq)) ∧
    ((TypeInfo.partialCmp e.typeInfo newT = some .gt ∨
      TypeInfo.partialCmp e.typeInfo newT = some .eq) →
      updateVariableTypeChain q x newT (pre ++ (sid, sd) :: rest) =
        .ok (pre ++
          (sid, if newT.isNever then sd else setVarType sd x 0 newT) ::
            rest)) ∧
    (¬ (TypeInfo.partialCmp e.typeInfo newT = some .gt ∨
        TypeInfo.partialCmp e.typeInfo newT = some .eq) →
      updateVariableTypeChain q x newT (pre ++ (sid, sd) :: rest) =
        .error "invalid type") := by
  induction pre with
  | nil =>
    simp only [List.nil_append]
    have hmut : findVarEntryMut [e] q = some 0 := rfl
    rcases hcmp : TypeInfo.partialCmp e.typeInfo newT with _ | o
    · have hb : updateVariableTypeChain q x newT ((sid, sd) :: rest) =
          .error "invalid type" := by
        unfold updateVariableTypeChain
        simp only [hfound, hmut, List.getD_cons_zero, hcmp]
      refine ⟨by rw [hb]; simp, ?_, fun _ => hb⟩
      rintro (h | h) <;> exact absurd h (by simp)
    · cases o with
      | lt =>
        have hb : updateVariableTypeChain q x newT ((sid, sd) :: rest) =
            .error "invalid type" := by
          unfold updateVariableTypeChain
          simp only [hfound, hmut, List.getD_cons_zero, hcmp]
        refine ⟨by rw [hb]; simp, ?_, fun _ => hb⟩
        rintro (h | h) <;> exact absurd h (by simp)
      | eq =>
        have hb : updateVariableTypeChain q x newT ((sid, sd) :: rest) =
            if newT.isNever then .ok ((sid, sd) :: rest)
            else .ok ((sid, setVarType sd x 0 newT) :: rest) := by
          unfold updateVariableTypeChain
          simp only [hfound, hmut, List.getD_cons_zero, hcmp]
        refine ⟨?_, ?_, ?_⟩
        · constructor
          · intro _; right; rfl
          · intro _
            rw [hb]
            by_cases hn : newT.isNever <;> simp [hn]
        · intro _
          rw [hb]
          by_cases hn : newT.isNever <;> simp [hn]
        · intro hcon
          exact absurd (Or.inr rfl) hcon
      | gt =>
        have hb : updateVariableTypeChain q x newT ((sid, sd) :: rest) =
            if newT.isNever then .ok ((sid, sd) :: rest)
            else .ok ((sid, setVarType sd x 0 newT) :: rest) := by
          unfold updateVariableTypeChain
          simp only [hfound, hmut, List.getD_cons_zero, hcmp]
        refine ⟨?_, ?_, ?_⟩
        · constructor
          · intro _; left; rfl
          · intro _
            rw [hb]
            by_cases hn : newT.isNever <;> simp [hn]
        · intro _
          rw [hb]
          by_cases hn : newT.isNever <;> simp [hn]
        · intro hcon
          exact absurd (Or.inl rfl) hcon
  | cons p pre2 ih =>
    have hp : lookupA p.2.vars x = none := hpre p (by simp)
    have hpre2 : ∀ p2 ∈ pre2, lookupA p2.2.vars x = none := by
      intro p2 hmem
      exact hpre p2 (by simp [hmem])
    obtain ⟨ih1, ih2, ih3⟩ := ih hpre2
    obtain ⟨pk, psd⟩ := p
    have hp2 : lookupA psd.vars x = none := hp
    have hstep : updateVariableTypeChain q x newT
        (((pk, psd) :: pre2) ++ (sid, sd) :: rest) =
        (updateVariableTypeChain q x newT (pre2 ++ (sid, sd) :: rest)).map
          (fun rest2 => (pk, psd) :: rest2) := by
      simp only [List.cons_append]
      conv_lhs => rw [updateVariableTypeChain]
      simp only [hp2]
    refine ⟨?_, ?_, ?_⟩
    · rw [hstep]
      constructor
      · rintro ⟨c2, hc2⟩
        apply ih1.mp
        cases hrec : updateVariableTypeChain q x newT
            (pre2 ++ (sid, sd) :: rest) with
        | error er => rw [hrec] at hc2; exact absurd hc2 (by simp [Except.map])
        | ok c3 => exact ⟨c3, rfl⟩
      · intro h
        obtain ⟨c2, hc2⟩ := ih1.mpr h
        exact ⟨(pk, psd) :: c2, by rw [hc2]; rfl⟩
    · intro h
      rw [hstep, ih2 h]
      rfl
    · intro h
      rw [hstep, ih3 h]
      rfl

/-- Witness for `c7_update_variable_type_characterization`: refining
`a : LitNum(I)` to `LitNum(I32)` through a two-scope chain succeeds and
writes the refined type. -/
theorem c7_update_variable_type_witness :
    updateVariableTypeChain 2 "a" (.litNum .i32)
        ([(4, ScopeData.newScope)] ++
          (3, { father := none, types := [],
                vars := [("a", [⟨1, .localVar, .litNum .i⟩])],
                curStmtId := 2, tempCount := 0 }) :: []) =
      .ok ([(4, ScopeData.newScope)] ++
        (3, if (TypeInfo.litNum .i32).isNever then
            { father := none, types := [],
              vars := [("a", [⟨1, .localVar, .litNum .i⟩])],
              curStmtId := 2, tempCount := 0 }
          else setVarType
            { father := none, types := [],
              vars := [("a", [⟨1, .localVar, .litNum .i⟩])],
              curStmtId := 2, tempCount := 0 } "a" 0 (.litNum .i32)) :: []) :=
  (c7_update_variable_type_characterization 2 "a" (.litNum .i32)
      [(4, ScopeData.newScope)] 3
      { father := none, types := [],
        vars := [("a", [⟨1, .localVar, .litNum .i⟩])],
        curStmtId := 2, tempCount := 0 } [] ⟨1, .localVar, .litNum .i⟩
      (by intro p hp; simp at hp; rw [hp]; rfl) rfl).2.1
    (Or.inl (by decide))

/-! #### Reasoning infrastructure for the builder monad -/

/-- `>>=` on `BuildM`, pointwise. -/
theorem bindB_eq {α β : Type} (x : BuildM α) (g : α → BuildM β)
    (s : BuildState) :
    (x >>= g) s = match x s with
      | .error e => .error e
      | .ok (a, s2) => g a s2 := rfl

/-- Invert a successful bind into its two successful stages. -/
theorem bind_ok {α β : Type} {x : BuildM α} {g : α → BuildM β}
    {s : BuildState} {r : β × BuildState} (h : (x >>= g) s = .ok r) :
    ∃ a s2, x s = .ok (a, s2) ∧ g a s2 = .ok r := by
  rw [bindB_eq] at h
  cases hx : x s with
  | error e => rw [hx] at h; exact absurd h (by simp)
  | ok p =>
    obtain ⟨a, s2⟩ := p
    rw [hx] at h
    exact ⟨a, s2, rfl, h⟩

/-- `pure` on `BuildM`, pointwise. -/
theorem pureB_eq {α : Type} (a : α) (s : BuildState) :
    (pure a : BuildM α) s = .ok (a, s) := rfl

/-- The place a `gen_temp_variable` call returns in state `s`. -/
def genTempPlace (s : BuildState) : Place :=
  Place.localP
    (tempLocalVar (s.ss.getScope s.ss.curScope).tempCount s.ss.curScope)

/-- The state after a `gen_temp_variable` call. -/
def genTempState (ti : TypeInfo) (s : BuildState) : BuildState :=
  { s with ss := (s.ss.updateScope s.ss.curScope
      (fun _ => ((s.ss.getScope s.ss.curScope).genTempVariable
        s.ss.curScope ti).2)) }

/-- `gen_temp_variable` always succeeds, returning the fresh temp place
and the updated state. -/
theorem genTempVariable_eq (ti : TypeInfo) (s : BuildState) :
    genTempVariable ti s = .ok (genTempPlace s, genTempState ti s) := rfl

/-- Freshly generated temporaries are `is_temp` (their label starts with
`'$'`), so `lit` never emits a store into them. -/
theorem isTemp_genTempPlace (s : BuildState) :
    (genTempPlace s).isTemp = true := by
  simp [genTempPlace, Place.localP, Place.isTemp, tempLocalVar]

/-- Parsing an in-range integer literal at the default width succeeds
with the `I32` operand. -/
theorem mkLitOperand_i_ok (v : Int) (h : fitsI32 v = true) :
    mkLitOperand .i v = .ok (.i32 v) := by
  have h2 := of_decide_eq_true h
  simp [mkLitOperand, fitsI32, i32Min, i32Max] at h2 ⊢
  omega

/-! #### C3 — find_variable -/

/-- The `VarInfo` sequences of a scope are sorted by `stmt_id`
(spec §8: "strictly increasing in stmt_id"). -/
def sortedByStmt (v : List VarInfo) : Prop :=
  List.Pairwise (fun a b => a.stmtId < b.stmtId) v

instance (v : List VarInfo) : Decidable (sortedByStmt v) :=
  inferInstanceAs (Decidable (List.Pairwise _ v))

/-- Sortedness gives monotone `stmt_id`s under `getD`. -/
theorem sorted_stmt_le {v : List VarInfo} (hs : sortedByStmt v) {i j : Nat}
    (hij : i ≤ j) (hj : j < v.length) :
    (v.getD i default).stmtId ≤ (v.getD j default).stmtId := by
  rcases Nat.eq_or_lt_of_le hij with h | h
  · subst h; exact le_refl _
  · rw [List.getD_eq_getElem _ _ (Nat.lt_trans h hj),
      List.getD_eq_getElem _ _ hj]
    exact le_of_lt (List.pairwise_iff_getElem.mp hs i j
      (Nat.lt_trans h hj) hj h)

/-- `getD` at an in-range index is a member. -/
theorem getD_mem_of_lt {v : List VarInfo} {i : Nat} (h : i < v.length) :
    v.getD i default ∈ v := by
  rw [List.getD_eq_getElem _ _ h]
  exact List.getElem_mem h

/-- Correctness of the `find_variable` binary search on a sorted segment:
when the left endpoint's entry is below `q`, everything beyond the right
endpoint is above `q`, and no entry equals `q`, the search lands on the
greatest index whose entry is below `q`. -/
theorem bsearchFind_correct (v : List VarInfo) (q : Nat)
    (hs : sortedByStmt v) (hne : ∀ e ∈ v, e.stmtId ≠ q) :
    ∀ fuel left right, left ≤ right → right < v.length →
      right - left < fuel →
      (v.getD left default).stmtId < q →
      (∀ j, right < j → j < v.length → q < (v.getD j default).stmtId) →
      ∃ m, bsearchFind fuel v q left right = some m ∧ left ≤ m ∧
        m ≤ right ∧ (v.getD m default).stmtId < q ∧
        (∀ j, j < v.length → (v.getD j default).stmtId < q → j ≤ m) := by
  intro fuel
  induction fuel with
  | zero =>
    intro left right _ _ h3 _ _
    omega
  | succ F ih =>
    intro left right hlr hrlen hfuel hleft hright
    by_cases hlt : left < right
    · have hmid1 : left < (left + right + 1) / 2 := by omega
      have hmid2 : (left + right + 1) / 2 ≤ right := by omega
      simp only [bsearchFind]
      rw [if_pos hlt]
      rcases Nat.lt_trichotomy q
          ((v.getD ((left + right + 1) / 2) default).stmtId) with
        hc | hc | hc
      · rw [if_pos hc]
        have hr2 : ∀ j, (left + right + 1) / 2 - 1 < j → j < v.length →
            q < (v.getD j default).stmtId := by
          intro j hj hjlen
          by_cases hjr : j ≤ right
          · calc q < (v.getD ((left + right + 1) / 2) default).stmtId := hc
              _ ≤ (v.getD j default).stmtId :=
                sorted_stmt_le hs (by omega) hjlen
          · exact hright j (by omega) hjlen
        obtain ⟨m, hm, hm1, hm2, hm3, hm4⟩ := ih left
          ((left + right + 1) / 2 - 1) (by omega) (by omega) (by omega)
          hleft hr2
        exact ⟨m, hm, hm1, by omega, hm3, hm4⟩
      · exact absurd hc.symm (hne _ (getD_mem_of_lt (by omega)))
      · rw [if_neg (by omega), if_neg (by omega)]
        obtain ⟨m, hm, hm1, hm2, hm3, hm4⟩ := ih ((left + right + 1) / 2)
          right hmid2 hrlen (by omega) hc hright
        exact ⟨m, hm, by omega, hm2, hm3, hm4⟩
    · have heq : left = right := by omega
      refine ⟨left, ?_, le_refl _, by omega, hleft, ?_⟩
      · simp only [bsearchFind]
        rw [if_neg hlt]
      · intro j hjlen hjlt
        by_contra hcon
        exact absurd hjlt (not_lt.mpr (le_of_lt
          (hright j (by omega) hjlen)))

/-- Entry selection within one scope: under the search preconditions the
selected entry is the greatest one strictly below `q`. -/
theorem findVarEntry_correct (v : List VarInfo) (q : Nat)
    (hs : sortedByStmt v) (hne : ∀ e ∈ v, e.stmtId ≠ q)
    (hnonempty : v ≠ []) (hhead : (v.getD 0 default).stmtId < q) :
    ∃ m, findVarEntry v q = some (v.getD m default) ∧ m < v.length ∧
      (v.getD m default).stmtId < q ∧
      (∀ j, j < v.length → (v.getD j default).stmtId < q → j ≤ m) := by
  cases v with
  | nil => exact absurd rfl hnonempty
  | cons a t =>
    simp only [findVarEntry]
    by_cases hl : (a :: t).length - 1 = 0
    · rw [if_pos hl]
      have hlen1 : t = [] := by
        cases t with
        | nil => rfl
        | cons b tb => simp at hl
      subst hlen1
      refine ⟨0, rfl, by simp, hhead, ?_⟩
      intro j hj _
      simp at hj
      omega
    · rw [if_neg hl]
      obtain ⟨m, hm, hm1, hm2, hm3, hm4⟩ :=
        bsearchFind_correct (a :: t) q hs hne (a :: t).length 0
          ((a :: t).length - 1) (by omega) (by omega) (by omega) hhead
          (fun j hj hjlen => absurd hjlen (by omega))
      rw [hm]
      exact ⟨m, rfl, by omega, hm3, hm4⟩

/-- The chain walk hits the first defining scope and returns its
greatest-below-`q` entry together with that scope's id. -/
theorem findVariableChain_found (q : Nat) (x : String)
    (pre : List (Nat × ScopeData)) (sid : Nat) (sd : ScopeData)
    (rest : List (Nat × ScopeData)) (v : List VarInfo) (m : Nat)
    (hpre : ∀ p ∈ pre, lookupA p.2.vars x = none)
    (hfound : lookupA sd.vars x = some v)
    (hs : sortedByStmt v) (hne : ∀ e ∈ v, e.stmtId ≠ q)
    (hnonempty : v ≠ []) (hm : m < v.length)
    (hmlt : (v.getD m default).stmtId < q)
    (hbound : m + 1 < v.length → ¬ ((v.getD (m + 1) default).stmtId < q)) :
    findVariableChain q x (pre ++ (sid, sd) :: rest) =
      some (v.getD m default, sid) := by
  induction pre with
  | nil =>
    simp only [List.nil_append]
    have hhead : (v.getD 0 default).stmtId < q :=
      lt_of_le_of_lt (sorted_stmt_le hs (Nat.zero_le m) hm) hmlt
    obtain ⟨m2, he, hm2len, hm2lt, hm2max⟩ :=
      findVarEntry_correct v q hs hne hnonempty hhead
    have hmm : m2 = m := by
      have h1 : m ≤ m2 := hm2max m hm hmlt
      by_contra hcon
      have h2 : m + 1 ≤ m2 := by omega
      have h3 : m + 1 < v.length := by omega
      have h4 : ¬ ((v.getD (m + 1) default).stmtId < q) := hbound h3
      exact h4 (lt_of_le_of_lt (sorted_stmt_le hs h2 hm2len) hm2lt)
    subst hmm
    conv_lhs => rw [findVariableChain]
    simp only [hfound, he]
    rfl
  | cons p pre2 ih =>
    have hp : lookupA p.2.vars x = none := hpre p (by simp)
    have hpre2 : ∀ p2 ∈ pre2, lookupA p2.2.vars x = none :=
      fun p2 hmem => hpre p2 (by simp [hmem])
    obtain ⟨pk, psd⟩ := p
    have hstep : findVariableChain q x
        (((pk, psd) :: pre2) ++ (sid, sd) :: rest) =
        findVariableChain q x (pre2 ++ (sid, sd) :: rest) := by
      simp only [List.cons_append]
      conv_lhs => rw [findVariableChain]
      simp only [hp]
    rw [hstep]
    exact ih hpre2

/-- A chain none of whose scopes defines `x` yields nothing. -/
theorem findVariableChain_none (q : Nat) (x : String)
    (chain : List (Nat × ScopeData))
    (h : ∀ p ∈ chain, lookupA p.2.vars x = none) :
    findVariableChain q x chain = none := by
  induction chain with
  | nil => rfl
  | cons p rest ih =>
    obtain ⟨pk, psd⟩ := p
    have hp : lookupA psd.vars x = none := h (pk, psd) (by simp)
    conv_lhs => rw [findVariableChain]
    simp only [hp]
    exact ih (fun p2 hmem => h p2 (by simp [hmem]))

/-- A scope defining `a` only at statement id 3, queried from
`cur_stmt_id = 1` — a lookup *before* the definition. -/
def c3Scope : ScopeData :=
  { father := none, types := [],
    vars := [("a", [⟨3, .localVar, .bool⟩])],
    curStmtId := 1, tempCount := 0 }

/-- C3 counterexample: at `cur_stmt_id = 1`, `find_variable("a")` on
`c3Scope` returns the (sole) entry with `stmt_id = 3` — an entry whose
`stmt_id` is *not* strictly less than `q = 1`, though the claim requires
the returned entry to have the greatest `stmt_id` strictly below `q`
(a single-entry sequence is returned without any comparison). -/
theorem c3_find_variable_counterexample :
    findVariable [(0, c3Scope)] "a" =
      some (⟨3, .localVar, .bool⟩, 0) ∧
    ([(0, c3Scope)].headI).2.curStmtId = 1 ∧
    ¬ (3 : Nat) < 1 :=
  ⟨by decide, by decide, by decide⟩

/-- C3 (amended): `find_variable(x)` walks self then the father chain;
in the first scope whose table defines `x` — provided the sequence is
sorted, contains no entry stamped `q`, and its earliest entry lies below
`q` — it returns the entry with the greatest `stmt_id` strictly below
`q` together with that scope's id; when no scope in the chain defines
`x` it returns nothing.  (When the first defining scope has no entry
below `q` the code instead returns an entry anyway — see the
counterexample.)  `q` is the `cur_stmt_id` of the scope the lookup
starts on, also while probing ancestors. -/
theorem c3_find_variable_greatest_below (q : Nat) (x : String) :
    (∀ (pre : List (Nat × ScopeData)) (sid : Nat) (sd : ScopeData)
        (rest : List (Nat × ScopeData)) (v : List VarInfo) (m : Nat),
      (∀ p ∈ pre, lookupA p.2.vars x = none) →
      lookupA sd.vars x = some v →
      sortedByStmt v → (∀ e ∈ v, e.stmtId ≠ q) → v ≠ [] →
      m < v.length → (v.getD m default).stmtId < q →
      (m + 1 < v.length → ¬ ((v.getD (m + 1) default).stmtId < q)) →
      findVariableChain q x (pre ++ (sid, sd) :: rest) =
        some (v.getD m default, sid)) ∧
    (∀ chain : List (Nat × ScopeData),
      (∀ p ∈ chain, lookupA p.2.vars x = none) →
      findVariableChain q x chain = none) :=
  ⟨fun pre sid sd rest v m hpre hfound hs hne hnonempty hm hmlt hbound =>
    findVariableChain_found q x pre sid sd rest v m hpre hfound hs hne
      hnonempty hm hmlt hbound,
   fun chain h => findVariableChain_none q x chain h⟩

/-- The scope of the repository's own `scope_test`: `a` defined at
statement ids 1, 3 and 8, queried at `cur_stmt_id = 4`. -/
def scopeTestScope : ScopeData :=
  { father := none, types := [],
    vars := [("a", [⟨1, .localVar, .bool⟩, ⟨3, .localVar, .litNum .u64⟩,
      ⟨8, .localMut, .bool⟩])],
    curStmtId := 4, tempCount := 0 }

/-- Witness for `c3_find_variable_greatest_below`: the `scope_test`
scenario of `analyser/tests/scope_test.rs` — the lookup at
`cur_stmt_id = 4` returns the `stmt_id = 3` entry (the `u64` one). -/
theorem c3_find_variable_witness :
    findVariableChain 4 "a" [(0, scopeTestScope)] =
      some (⟨3, .localVar, .litNum .u64⟩, 0) :=
  (c3_find_variable_greatest_below 4 "a").1 [] 0 scopeTestScope []
    [⟨1, .localVar, .bool⟩, ⟨3, .localVar, .litNum .u64⟩,
      ⟨8, .localMut, .bool⟩] 1
    (fun p hp => absurd hp (List.not_mem_nil p)) rfl
    (by decide) (by decide) (by decide) (by decide) (by decide) (by decide)

/-! #### C2 — checked constant folding at optimize level One -/

/-- `(genTempState ti s).insts = s.insts`: temp generation emits nothing. -/
theorem genTempState_insts (ti : TypeInfo) (s : BuildState) :
    (genTempState ti s).insts = s.insts := rfl

/-- Temp generation leaves the optimization level unchanged. -/
theorem genTempState_optimizeLevel (ti : TypeInfo) (s : BuildState) :
    (genTempState ti s).optimizeLevel = s.optimizeLevel := rfl

/-- The final state of a constant-folded binary expression at level One:
two temp allocations, then (for a named destination) a single
`LoadData dest v`. -/
def foldEmitState (d : Place) (v : Operand) (tiL tiR : TypeInfo)
    (s : BuildState) : BuildState :=
  let s2 := genTempState tiR (genTempState tiL s)
  if d.isTemp then s2 else { s2 with insts := s2.insts ++ [.loadData d v] }

/-- C2: for two in-range i32 literal operands, `bin_op_may_constant_fold`
computes exactly the checked-i32 result of each folded operator — `+ - *
/ %` with their overflow conditions (`/` and `%` also fail at `MIN / -1`
and on a zero divisor), the six comparisons, bitwise `& | ^` on the
32-bit patterns, and the shifts (checked on the shift amount
re-interpreted as `u32`, the value truncated two's-complement for `<<`
and sign-extended for `>>`) — failing with the per-operator overflow
`RccError` whenever the checked operation fails; and at optimization
level One the builder emits the folded constant (one `LoadData` into a
named destination, nothing into a temp) instead of a `BinOp`. -/
theorem c2_constant_fold_checked_i32 (l r : Int)
    (hl : fitsI32 l = true) (hr : fitsI32 r = true) :
    ((i32Min ≤ l + r ∧ l + r ≤ i32Max →
      binOpMayConstantFold .plus (.i32 l) (.i32 r) =
        .ok (some (.i32 (l + r)))) ∧
     (¬ (i32Min ≤ l + r ∧ l + r ≤ i32Max) →
      binOpMayConstantFold .plus (.i32 l) (.i32 r) =
        .error "add overflow")) ∧
    ((i32Min ≤ l - r ∧ l - r ≤ i32Max →
      binOpMayConstantFold .minus (.i32 l) (.i32 r) =
        .ok (some (.i32 (l - r)))) ∧
     (¬ (i32Min ≤ l - r ∧ l - r ≤ i32Max) →
      binOpMayConstantFold .minus (.i32 l) (.i32 r) =
        .error "sub overflow")) ∧
    ((i32Min ≤ l * r ∧ l * r ≤ i32Max →
      binOpMayConstantFold .star (.i32 l) (.i32 r) =
        .ok (some (.i32 (l * r)))) ∧
     (¬ (i32Min ≤ l * r ∧ l * r ≤ i32Max) →
      binOpMayConstantFold .star (.i32 l) (.i32 r) =
        .error "mul overflow")) ∧
    ((¬ (r = 0 ∨ (l = i32Min ∧ r = -1)) →
      binOpMayConstantFold .slash (.i32 l) (.i32 r) =
        .ok (some (.i32 (l.tdiv r)))) ∧
     (r = 0 ∨ (l = i32Min ∧ r = -1) →
      binOpMayConstantFold .slash (.i32 l) (.i32 r) =
        .error "div overflow")) ∧
    ((¬ (r = 0 ∨ (l = i32Min ∧ r = -1)) →
      binOpMayConstantFold .percent (.i32 l) (.i32 r) =
        .ok (some (.i32 (l.tmod r)))) ∧
     (r = 0 ∨ (l = i32Min ∧ r = -1) →
      binOpMayConstantFold .percent (.i32 l) (.i32 r) =
        .error "rem overflow")) ∧
    (binOpMayConstantFold .lt (.i32 l) (.i32 r) =
      .ok (some (.bool (decide (l < r))))) ∧
    (binOpMayConstantFold .le (.i32 l) (.i32 r) =
      .ok (some (.bool (decide (l ≤ r))))) ∧
    (binOpMayConstantFold .gt (.i32 l) (.i32 r) =
      .ok (some (.bool (decide (l > r))))) ∧
    (binOpMayConstantFold .ge (.i32 l) (.i32 r) =
      .ok (some (.bool (decide (l ≥ r))))) ∧
    (binOpMayConstantFold .ne (.i32 l) (.i32 r) =
      .ok (some (.bool (decide (l ≠ r))))) ∧
    (binOpMayConstantFold .eqEq (.i32 l) (.i32 r) =
      .ok (some (.bool (decide (l = r))))) ∧
    (binOpMayConstantFold .and (.i32 l) (.i32 r) =
      .ok (some (.i32 (landI32 l r)))) ∧
    (binOpMayConstantFold .or (.i32 l) (.i32 r) =
      .ok (some (.i32 (lorI32 l r)))) ∧
    (binOpMayConstantFold .caret (.i32 l) (.i32 r) =
      .ok (some (.i32 (lxorI32 l r)))) ∧
    ((0 ≤ r ∧ r < 32 →
      binOpMayConstantFold .shl (.i32 l) (.i32 r) =
        .ok (some (.i32 (wrapI32 (l * 2 ^ r.toNat))))) ∧
     (¬ (0 ≤ r ∧ r < 32) →
      binOpMayConstantFold .shl (.i32 l) (.i32 r) =
        .error "shl overflow")) ∧
    ((0 ≤ r ∧ r < 32 →
      binOpMayConstantFold .shr (.i32 l) (.i32 r) =
        .ok (some (.i32 (l.fdiv ((2 : Int) ^ r.toNat))))) ∧
     (¬ (0 ≤ r ∧ r < 32) →
      binOpMayConstantFold .shr (.i32 l) (.i32 r) =
        .error "shr overflow")) ∧
    (∀ (f : Nat) (s : BuildState) (d : Place) (op : BinOperator)
        (ti : TypeInfo) (irT : IRType) (v : Operand),
      s.optimizeLevel = .one →
      IRType.fromTypeInfo ti = .ok irT →
      binOpMayConstantFold op (.i32 l) (.i32 r) = .ok (some v) →
      visitQ (f + 2) (.binOpQ (.litNum l .i) op (.litNum r .i) ti
          (some d)) s =
        .ok (.op v, foldEmitState d v (exprTypeInfo (.litNum l .i))
          (exprTypeInfo (.litNum r .i)) s) ∧
      (foldEmitState d v (exprTypeInfo (.litNum l .i))
          (exprTypeInfo (.litNum r .i)) s).insts =
        s.insts ++ (if d.isTemp then [] else [.loadData d v])) := by
  refine ⟨⟨?_, ?_⟩, ⟨?_, ?_⟩, ⟨?_, ?_⟩, ⟨?_, ?_⟩, ⟨?_, ?_⟩, rfl, rfl, rfl,
    rfl, rfl, rfl, rfl, rfl, rfl, ⟨?_, ?_⟩, ⟨?_, ?_⟩, ?_⟩
  · intro h
    simp only [binOpMayConstantFold, checkedAddI32]
    rw [if_pos (by simpa [fitsI32] using h)]
  · intro h
    simp only [binOpMayConstantFold, checkedAddI32]
    rw [if_neg (by simpa [fitsI32] using h)]
  · intro h
    simp only [binOpMayConstantFold, checkedSubI32]
    rw [if_pos (by simpa [fitsI32] using h)]
  · intro h
    simp only [binOpMayConstantFold, checkedSubI32]
    rw [if_neg (by simpa [fitsI32] using h)]
  · intro h
    simp only [binOpMayConstantFold, checkedMulI32]
    rw [if_pos (by simpa [fitsI32] using h)]
  · intro h
    simp only [binOpMayConstantFold, checkedMulI32]
    rw [if_neg (by simpa [fitsI32] using h)]
  · intro h
    simp only [binOpMayConstantFold, checkedDivI32]
    rw [if_neg h]
  · intro h
    simp only [binOpMayConstantFold, checkedDivI32]
    rw [if_pos h]
  · intro h
    simp only [binOpMayConstantFold, checkedRemI32]
    rw [if_neg h]
  · intro h
    simp only [binOpMayConstantFold, checkedRemI32]
    rw [if_pos h]
  · intro h
    simp only [binOpMayConstantFold, checkedShlI32]
    rw [if_pos h]
  · intro h
    simp only [binOpMayConstantFold, checkedShlI32]
    rw [if_neg h]
  · intro h
    simp only [binOpMayConstantFold, checkedShrI32]
    rw [if_pos h]
  · intro h
    simp only [binOpMayConstantFold, checkedShrI32]
    rw [if_neg h]
  · intro f s d op ti irT v hlvl hty hfold
    constructor
    · have h1 := genTempVariable_eq (exprTypeInfo (.litNum l .i)) s
      have h3 := genTempVariable_eq (exprTypeInfo (.litNum r .i))
        (genTempState (exprTypeInfo (.litNum l .i)) s)
      by_cases ht : d.isTemp
      · simp [visitQ, bindB_eq, h1, h3, visitLitNum, liftE,
          mkLitOperand_i_ok l hl, mkLitOperand_i_ok r hr, litB,
          isTemp_genTempPlace, expectOp, pureB_eq, hty, hfold, getB,
          genTempState_optimizeLevel, hlvl, ht, foldEmitState]
      · simp [visitQ, bindB_eq, h1, h3, visitLitNum, liftE,
          mkLitOperand_i_ok l hl, mkLitOperand_i_ok r hr, litB,
          isTemp_genTempPlace, expectOp, pureB_eq, hty, hfold, getB,
          genTempState_optimizeLevel, hlvl, ht, foldEmitState, addInst,
          modifyB]
    · by_cases ht : d.isTemp <;>
        simp [foldEmitState, ht, genTempState_insts]

/-- Witness for `c2_constant_fold_checked_i32`: `2 + 3` folds to
`I32(5)`, and `1 / 0` folds to the "div overflow" error. -/
theorem c2_constant_fold_witness :
    binOpMayConstantFold .plus (.i32 2) (.i32 3) =
      .ok (some (.i32 (2 + 3))) ∧
    binOpMayConstantFold .slash (.i32 1) (.i32 0) =
      .error "div overflow" :=
  ⟨(c2_constant_fold_checked_i32 2 3 (by decide) (by decide)).1.1
      (by decide),
   (c2_constant_fold_checked_i32 1 0 (by decide) (by decide)).2.2.2.1.2
      (by decide)⟩

/-! #### C9 — constant folding precedes the optimization-level check -/

/-- C9: in `visit_bin_op_expr` the constant fold runs before `dest` and
the optimization level are consulted, so a binary expression over two
in-range i32 literals whose checked arithmetic fails aborts the build
with the fold's error — for *every* builder state (in particular at
optimize level Zero, where the folded value would never be emitted) and
every destination (including none). -/
theorem c9_fold_error_aborts_at_any_level (f : Nat) (s : BuildState)
    (dest : Option Place) (ti : TypeInfo) (irT : IRType)
    (op : BinOperator) (l r : Int) (msg : String)
    (hl : fitsI32 l = true) (hr : fitsI32 r = true)
    (hty : IRType.fromTypeInfo ti = .ok irT)
    (hfold : binOpMayConstantFold op (.i32 l) (.i32 r) = .error msg) :
    visitQ (f + 2) (.binOpQ (.litNum l .i) op (.litNum r .i) ti dest) s =
      .error msg := by
  have h1 := genTempVariable_eq (exprTypeInfo (.litNum l .i)) s
  have h3 := genTempVariable_eq (exprTypeInfo (.litNum r .i))
    (genTempState (exprTypeInfo (.litNum l .i)) s)
  simp [visitQ, bindB_eq, h1, h3, visitLitNum, liftE,
    mkLitOperand_i_ok l hl, mkLitOperand_i_ok r hr, litB,
    isTemp_genTempPlace, expectOp, pureB_eq, hty, hfold]

/-- Witness for `c9_fold_error_aborts_at_any_level`: `1 / 0` aborts with
"div overflow" at optimize level Zero with no destination. -/
theorem c9_fold_error_witness :
    visitQ 2 (.binOpQ (.litNum 1 .i) .slash (.litNum 0 .i)
        (.litNum .i32) none) (initState (letAddProgram .zero)) =
      .error "div overflow" :=
  c9_fold_error_aborts_at_any_level 0 (initState (letAddProgram .zero))
    none (.litNum .i32) .i32 .slash 1 0 "div overflow"
    (by decide) (by decide) (by decide) (by decide)

/-! #### C10 — statement-context blocks -/

/-- A block whose trailing expression is a bare `return`, visited in
statement context (no destination): the counterexample block for C10. -/
def returnTailBlock : BlockE := BlockE.mk [] (some (.retE none)) 9 .unit

/-- C10 counterexample: lowering `{ return }` with no destination
*succeeds* and yields the `Never` operand — not `Unit` as the claim
states (the trailing `return` lowered without destination produces
`Operand::Never`, which passes the `is_unit_or_never` guard and is
returned as the block's value). -/
theorem c10_counterexample :
    (visitQ 3 (.blockQ returnTailBlock none)
        (initState (letAddProgram .zero))).map Prod.fst =
      .ok (Vres.op .never) ∧
    ¬ (visitQ 3 (.blockQ returnTailBlock none)
        (initState (letAddProgram .zero))).map Prod.fst =
      .ok (Vres.op .unit) :=
  ⟨by decide, by decide⟩

/-- C10 (amended): lowering a block with no destination (statement
context) (i) can only succeed with a unit-or-never operand; (ii) errors
with exactly `"error in visiting block expr: expected `()`, found …"`
whenever the statements succeed and the trailing expression lowers to an
operand that is neither unit nor never; and (iii) succeeds with `Unit`
when there is no trailing expression and the statements succeed.  A
trailing `Never` (e.g. a `return`) yields `Never`, not `Unit`. -/
theorem c10_block_stmt_context (f : Nat) (b : BlockE) (s : BuildState) :
    (∀ res s2, visitQ (f + 1) (.blockQ b none) s = .ok (res, s2) →
      ∃ o, res = .op o ∧ o.isUnitOrNever) ∧
    (∀ e r1 s4 o1 s5, b.lastExpr = some e →
      visitQ f (.stmtListQ b.stmts)
        { s with ss := s.ss.enterScope b.scopeId } = .ok (r1, s4) →
      visitQ f (.exprQ e none) s4 = .ok (.op o1, s5) →
      o1.isUnitOrNever = false →
      visitQ (f + 1) (.blockQ b none) s =
        .error ("error in visiting block expr: expected `()`, found "
          ++ o1.debugStr)) ∧
    (∀ r1 s4, b.lastExpr = none →
      visitQ f (.stmtListQ b.stmts)
        { s with ss := s.ss.enterScope b.scopeId } = .ok (r1, s4) →
      visitQ (f + 1) (.blockQ b none) s =
        .ok (.op .unit, { s4 with ss := s4.ss.exitScope })) := by
  refine ⟨?_, ?_, ?_⟩
  · intro res s2 h
    simp only [visitQ] at h
    obtain ⟨_, s3, h1, h⟩ := bind_ok h
    obtain ⟨_, s4, h2, h⟩ := bind_ok h
    obtain ⟨o0, s5, h3, h⟩ := bind_ok h
    obtain ⟨_, s6, h4, h⟩ := bind_ok h
    have hres : res = .op o0 := by cases h; rfl
    refine ⟨o0, hres, ?_⟩
    cases hle : b.lastExpr with
    | none =>
      rw [hle] at h3
      cases h3; rfl
    | some e =>
      rw [hle] at h3
      obtain ⟨r1, s7, h5, h3⟩ := bind_ok h3
      obtain ⟨o1, s8, h6, h3⟩ := bind_ok h3
      by_cases hu : o1.isUnitOrNever
      · simp only [Option.isNone_none, hu, Bool.not_true, Bool.and_false]
          at h3
        cases h3
        exact hu
      · rw [Bool.not_eq_true] at hu
        simp [hu, throwB] at h3
  · intro e r1 s4 o1 s5 hle h2 h3 hu
    have h1 : enterScopeB b.scopeId s =
        .ok ((), { s with ss := s.ss.enterScope b.scopeId }) := rfl
    simp only [visitQ, bindB_eq, h1, h2, hle, h3, expectOp, hu, throwB,
      Option.isNone_none, Bool.not_false, Bool.and_self, if_true]
  · intro r1 s4 hle h2
    have h1 : enterScopeB b.scopeId s =
        .ok ((), { s with ss := s.ss.enterScope b.scopeId }) := rfl
    simp only [visitQ, bindB_eq, h1, h2, hle]
    rfl

/-- Witness for `c10_block_stmt_context`: the block `{ a }` (a trailing
path expression) lowered in statement context fails with the exact
message, naming the offending operand `Place(a_2)`. -/
theorem c10_block_stmt_context_witness :
    visitQ 3 (.blockQ (BlockE.mk [] (some (.path ["a"] (.litNum .i))) 2
        .unit) none) (initState (letAddProgram .zero)) =
      .error ("error in visiting block expr: expected `()`, found "
        ++ (Operand.place (Place.variableP "a" 2 .localVar)).debugStr) :=
  (c10_block_stmt_context 2
      (BlockE.mk [] (some (.path ["a"] (.litNum .i))) 2 .unit)
      (initState (letAddProgram .zero))).2.1
    (.path ["a"] (.litNum .i)) .unitR
    { (initState (letAddProgram .zero)) with
        ss := (initState (letAddProgram .zero)).ss.enterScope 2 }
    (Operand.place (Place.variableP "a" 2 .localVar))
    { (initState (letAddProgram .zero)) with
        ss := (initState (letAddProgram .zero)).ss.enterScope 2 }
    rfl (by decide) (by decide) (by decide)

end Rcc
